import Mathlib

/-!
Verification development for the Kangaroo expression evaluator
(sandboxed AST-based expression engine).

The definitions below are shallow embeddings of the TypeScript sources:
  - `src/core/validator.ts`  (SecurityValidator)
  - `src/core/executor.ts`   (ASTExecutor)
  - `src/core/parser.ts`     (ASTParser; the external acorn parser itself
    is spec-modelled where noted)
  - `src/core/type-registry.ts` (DefaultTypeRegistry)
  - `src/callbacks/operations.ts` (ASTCallbackEvaluator / ASTArrayOperations)
  - `src/core/evaluator.ts`  (Kangaroo orchestrator)

Modelling conventions:
  - JavaScript values are the inductive `Value`; numbers are modelled as
    exact rationals extended with NaN and the two infinities.  All claims
    under study only exercise integer arithmetic, where rationals and
    IEEE-754 doubles agree.
  - Host prototype chains are not modelled: property lookup on an object
    is own-key lookup, and a context is a pure mapping (the data model of
    the system treats `ExpressionContext` as a mapping from name to value).
  - Exceptions are `Except String`; mutable instance state (the property
    cache, the template cache) is threaded explicitly.
  - Wall-clock timeouts are not modelled (no claim concerns real time);
    the stack-depth cap is modelled; a `fuel` parameter makes the
    interpreter total (all concrete runs use ample fuel).
-/

namespace Kangaroo

/-- Left curly brace character (written via its code point). -/
def lbrace : Char := Char.ofNat 123

/-- Right curly brace character (written via its code point). -/
def rbrace : Char := Char.ofNat 125

/-- JavaScript numbers: exact rationals plus NaN and signed infinities.
Exact rationals agree with IEEE-754 doubles on the integer ranges used by
every claim in this development. -/
inductive JsNum where
  | rat (q : ℚ)
  | nan
  | posInf
  | negInf
deriving DecidableEq, Repr

/-- Shorthand for an integral JavaScript number. -/
def JsNum.int (n : Int) : JsNum := .rat (n : ℚ)

/-- JavaScript runtime values (the value domain of the executor).
Arrays and objects are structural; reference identity is not modelled. -/
inductive Value where
  | vUndefined
  | vNull
  | vBool (b : Bool)
  | vNum (n : JsNum)
  | vStr (s : String)
  | vArr (elems : List Value)
  | vObj (props : List (String × Value))
deriving Repr

/-- `typeof` on a value, as the host reports it. -/
def typeofString : Value → String
  | .vUndefined => "undefined"
  | .vNull => "object"
  | .vBool _ => "boolean"
  | .vNum _ => "number"
  | .vStr _ => "string"
  | .vArr _ => "object"
  | .vObj _ => "object"

/-- Decimal rendering of a JavaScript number.  Non-integral finite numbers
are not rendered (no claim stringifies a non-integer); a placeholder marks
that gap explicitly. -/
def numToString : JsNum → String
  | .rat q => if q.den = 1 then toString q.num else "<noninteger>"
  | .nan => "NaN"
  | .posInf => "Infinity"
  | .negInf => "-Infinity"

mutual
/-- The host string coercion `String(v)`. -/
def jsString : Value → String
  | .vUndefined => "undefined"
  | .vNull => "null"
  | .vBool b => cond b ("true") "false"
  | .vNum n => numToString n
  | .vStr s => s
  | .vArr l => arrayJoin l
  | .vObj _ => "[object Object]"

/-- `Array.prototype.toString`: comma join where null/undefined render empty. -/
def arrayJoin : List Value → String
  | [] => ""
  | [v] => arrayElemString v
  | v :: rest => arrayElemString v ++ "," ++ arrayJoin rest

/-- One element inside an array join. -/
def arrayElemString : Value → String
  | .vUndefined => ""
  | .vNull => ""
  | v => jsString v
end

/-! ## AST node model

The closed node variant set shared by parser, validator and executor.
`other` represents any foreign node kind produced by the underlying
parser (its type tag plus its walkable children); the validator rejects
unsupported tags and does not descend into them. -/

inductive Node where
  | literal (v : Value)
  | identifier (name : String)
  | member (obj : Node) (prop : Node) (computed : Bool)
  | call (callee : Node) (args : List Node)
  | unary (op : String) (arg : Node)
  | binary (op : String) (l : Node) (r : Node)
  | logical (op : String) (l : Node) (r : Node)
  | conditional (t : Node) (c : Node) (a : Node)
  | arrayLit (elems : List (Option Node))
  | objectLit (props : List Node)
  | property (key : Node) (val : Node) (computed : Bool)
  | arrow (params : List Node) (body : Node)
  | other (typeName : String) (kids : List Node)
deriving Repr

/-- The acorn-style `type` tag of a node. -/
def nodeType : Node → String
  | .literal _ => "Literal"
  | .identifier _ => "Identifier"
  | .member _ _ _ => "MemberExpression"
  | .call _ _ => "CallExpression"
  | .unary _ _ => "UnaryExpression"
  | .binary _ _ _ => "BinaryExpression"
  | .logical _ _ _ => "LogicalExpression"
  | .conditional _ _ _ => "ConditionalExpression"
  | .arrayLit _ => "ArrayExpression"
  | .objectLit _ => "ObjectExpression"
  | .property _ _ _ => "Property"
  | .arrow _ _ => "ArrowFunctionExpression"
  | .other t _ => t

/-! ## Security validator (src/core/validator.ts)

A pure pre-order walk accumulating violations.  The validator instance
caches results per node signature; every theorem below concerns the
computed (first, fresh-cache) result.  Custom rules are empty in the
default configuration and are not modelled. -/

/-- One security violation.  `severity` is optional because the
orchestrator-level `validate` also pushes violations without a severity
field.  Node/position/suggestion fields are not modelled. -/
structure Violation where
  vtype : String
  message : String
  severity : Option String
deriving DecidableEq, Repr

/-- Identifier denylist, in source order. -/
def blockedIdentifiers : List String :=
  ["eval", "Function", "constructor", "prototype", "__proto__",
   "window", "document", "global", "globalThis", "self", "parent", "top", "frames",
   "process", "require", "module", "exports", "__dirname", "__filename",
   "Buffer", "setImmediate", "clearImmediate", "setInterval", "clearInterval",
   "alert", "confirm", "prompt", "console", "fetch", "XMLHttpRequest",
   "localStorage", "sessionStorage", "indexedDB", "location", "history", "navigator",
   "setTimeout", "clearTimeout",
   "Worker", "SharedWorker", "ServiceWorker", "importScripts", "import",
   "WebAssembly",
   "WebSocket", "EventSource", "FileReader", "Blob", "URL", "URLSearchParams",
   "postMessage", "MessageChannel", "BroadcastChannel",
   "Error", "SyntaxError", "ReferenceError", "TypeError"]

/-- Property denylist used by the validator (19 names). -/
def blockedProperties : List String :=
  ["constructor", "prototype", "__proto__", "__defineGetter__", "__defineSetter__",
   "__lookupGetter__", "__lookupSetter__", "valueOf", "toString",
   "hasOwnProperty", "isPrototypeOf", "propertyIsEnumerable",
   "__defineProperty__", "__getOwnPropertyDescriptor__", "__getPrototypeOf__",
   "__setPrototypeOf__", "apply", "call", "bind"]

/-- Node type allowlist. -/
def supportedNodeTypes : List String :=
  ["MemberExpression", "CallExpression", "Literal", "Identifier",
   "BinaryExpression", "ConditionalExpression", "ArrayExpression",
   "ObjectExpression", "Property", "UnaryExpression", "LogicalExpression",
   "ArrowFunctionExpression", "TemplateLiteral", "TemplateElement"]

/-- Operator denylist. -/
def blockedOperators : List String :=
  ["instanceof", "delete", "new", "typeof", "void"]

/-- Static namespaces recognized for qualified method names. -/
def staticNamespaces : List String :=
  ["Object", "Math", "JSON", "Date", "Array", "Crypto", "String", "Number"]

/-- Callback method names handled by the callback engine. -/
def callbackMethods : List String :=
  ["filter", "map", "find", "some", "every", "reduce"]

/-- ASCII lower-casing of a character list (the dangerous-pattern regexes
are case-insensitive). -/
def lowerChars (l : List Char) : List Char := l.map Char.toLower

/-- Does the first list occur as a prefix of the second? -/
def charsStartWith : List Char → List Char → Bool
  | [], _ => true
  | _ :: _, [] => false
  | p :: ps, c :: cs => p == c && charsStartWith ps cs

/-- Word character as in the regex class backslash-w. -/
def isWordChar (c : Char) : Bool := c.isAlphanum || c == '_'

/-- Whitespace as in the regex class backslash-s (ASCII portion). -/
def isSpaceChar (c : Char) : Bool :=
  c == ' ' || c == '\t' || c == '\n' || c == '\x0d' || c == '\x0b' || c == '\x0c'

/-- Literal substring match (input already lower-cased). -/
def hitsLiteral (pat : List Char) (low : List Char) : Bool :=
  low.tails.any (fun t => charsStartWith pat t)

/-- Match for the event-handler shape: `on`, one or more word characters,
optional whitespace, `=`. -/
def onHandlerHere : List Char → Bool
  | 'o' :: 'n' :: rest =>
      let w := rest.takeWhile isWordChar
      decide (w ≠ []) &&
        (match (rest.drop w.length).dropWhile isSpaceChar with
         | '=' :: _ => true
         | _ => false)
  | _ => false

/-- Match for a call shape: the given word, optional whitespace, `(`. -/
def callShapeHere (word : List Char) (t : List Char) : Bool :=
  charsStartWith word t &&
    (match (t.drop word.length).dropWhile isSpaceChar with
     | '(' :: _ => true
     | _ => false)

/-- Any-suffix search for a lower-cased predicate. -/
def hitsShape (pred : List Char → Bool) (low : List Char) : Bool :=
  low.tails.any pred

/-- The dangerous string-literal patterns, as (regex source, matcher)
pairs in source order. -/
def dangerousPatterns : List (String × (List Char → Bool)) :=
  [("javascript:", hitsLiteral ("javascript:".data)),
   ("data:text\\/html", hitsLiteral ("data:text/html".data)),
   ("data:application\\/javascript", hitsLiteral ("data:application/javascript".data)),
   ("vbscript:", hitsLiteral ("vbscript:".data)),
   ("<script", hitsLiteral ("<script".data)),
   ("on\\w+\\s*=", hitsShape onHandlerHere),
   ("eval\\s*\\(", hitsShape (callShapeHere ("eval".data))),
   ("Function\\s*\\(", hitsShape (callShapeHere ("function".data))),
   ("setTimeout\\s*\\(", hitsShape (callShapeHere ("settimeout".data))),
   ("setInterval\\s*\\(", hitsShape (callShapeHere ("setinterval".data)))]

/-- Sources of the dangerous patterns matching a string. -/
def dangerousPatternHits (s : String) : List String :=
  let low := lowerChars s.data
  (dangerousPatterns.filter (fun p => p.2 low)).map (fun p => p.1)

/-- validateIdentifier: flag denylisted identifier names. -/
def validateIdentifierV (name : String) : List Violation :=
  if blockedIdentifiers.contains name then
    [⟨"blocked_identifier",
      "Identifier \x27" ++ name ++ "\x27 is blocked for security reasons",
      some ("error")⟩]
  else []

/-- getPropertyChainDepth: length of the member chain ending at this node. -/
def getPropertyChainDepth : Node → Nat
  | .member (.member o p c) _ _ => 1 + getPropertyChainDepth (.member o p c)
  | _ => 1

/-- isPrototypePollutionPattern: computed access through a denylisted
string literal, anywhere along the member chain. -/
def isProtoPollution : Node → Bool
  | .member obj prop computed =>
      (computed &&
        (match prop with
         | .literal (.vStr s) => blockedProperties.contains s
         | _ => false)) ||
      (match obj with
       | .member o2 p2 c2 => isProtoPollution (.member o2 p2 c2)
       | _ => false)
  | _ => false

/-- validateMemberExpression. -/
def validateMemberV (obj : Node) (prop : Node) (computed : Bool) : List Violation :=
  let staticPart :=
    if !computed then
      match prop with
      | .identifier pname =>
          if blockedProperties.contains pname then
            [⟨"blocked_property",
              "Property \x27" ++ pname ++ "\x27 is blocked for security reasons",
              some ("error")⟩]
          else []
      | _ => []
    else []
  let pollutionPart :=
    if isProtoPollution (.member obj prop computed) then
      [⟨"blocked_pattern", "Potential prototype pollution pattern detected",
        some ("error")⟩]
    else []
  let depthPart :=
    let d := getPropertyChainDepth (.member obj prop computed)
    if d > 10 then
      [⟨"depth_limit",
        "Property chain too deep (" ++ toString d ++ " levels)",
        some ("warning")⟩]
    else []
  staticPart ++ pollutionPart ++ depthPart

/-- getMethodName on a member callee. -/
def getMethodNameV : Node → Option String
  | .member _ (.identifier pname) computed => if computed then none else some pname
  | _ => none

/-- getFullMethodName on a member callee (qualified static namespaces). -/
def getFullMethodNameV : Node → Option String
  | .member (.identifier oname) (.identifier pname) computed =>
      if !computed && staticNamespaces.contains oname then
        some (oname ++ "." ++ pname)
      else none
  | _ => none

/-- validateCallbackMethodCall: callback methods need an arrow first arg. -/
def validateCallbackCallV (args : List Node) : List Violation :=
  match args with
  | [] =>
      [⟨"blocked_pattern", "Callback methods require at least one argument",
        some ("error")⟩]
  | first :: _ =>
      match first with
      | .arrow _ _ => []
      | _ =>
          [⟨"blocked_pattern", "Callback methods require arrow function arguments",
            some ("error")⟩]

/-- validateCallExpression, parameterized by registry membership. -/
def validateCallV (hasFn : String → Bool) (callee : Node) (args : List Node) :
    List Violation :=
  let directPart :=
    match callee with
    | .identifier fname =>
        if !hasFn fname then
          [⟨"blocked_identifier",
            "Function \x27" ++ fname ++ "\x27 is not in the allowed function registry",
            some ("error")⟩]
        else []
    | _ => []
  let methodPart :=
    match callee with
    | .member o p c =>
        let mName := getMethodNameV (.member o p c)
        let fName := getFullMethodNameV (.member o p c)
        let isCallback :=
          match mName with
          | some m => callbackMethods.contains m
          | none => false
        if isCallback then
          validateCallbackCallV args
        else
          let hasMethod := match mName with | some m => hasFn m | none => false
          let hasFull := match fName with | some f => hasFn f | none => false
          if !hasMethod && !hasFull then
            [⟨"blocked_identifier",
              "Method \x27" ++ (fName.getD (mName.getD ("null"))) ++
                "\x27 is not in the allowed function registry",
              some ("error")⟩]
          else []
    | _ => []
  let argPart :=
    if args.length > 20 then
      [⟨"complexity_limit",
        "Too many function arguments (" ++ toString args.length ++ ")",
        some ("warning")⟩]
    else []
  directPart ++ methodPart ++ argPart

/-- validateBinaryExpression / validateUnaryExpression operator check. -/
def validateOperatorV (op : String) (unary : Bool) : List Violation :=
  if blockedOperators.contains op then
    [⟨"blocked_pattern", "Operator \x27" ++ op ++ "\x27 is not allowed",
      some (if unary then "error" else "error")⟩]
  else []

/-- validateArrowFunction: at most four plain-identifier, non-denylisted
parameters.  The params-is-an-array guard always holds structurally. -/
def validateArrowV (params : List Node) : List Violation :=
  let lenPart :=
    if params.length > 4 then
      [⟨"complexity_limit",
        "Arrow functions cannot have more than 4 parameters (got " ++
          toString params.length ++ ")",
        some ("error")⟩]
    else []
  let paramPart :=
    params.flatMap (fun p =>
      match p with
      | .identifier pname =>
          if blockedIdentifiers.contains pname then
            [⟨"blocked_identifier",
              "Parameter name \x27" ++ pname ++ "\x27 is blocked for security reasons",
              some ("error")⟩]
          else []
      | _ =>
          [⟨"invalid_node_type", "Arrow function parameters must be simple identifiers",
            some ("error")⟩])
  lenPart ++ paramPart

/-- validateLiteral: dangerous patterns and excessive length on strings.
String length is counted in code points; all inputs under study are ASCII,
where this agrees with the UTF-16 count of the host. -/
def validateLiteralV : Value → List Violation
  | .vStr s =>
      ((dangerousPatternHits s).map (fun src =>
        ⟨"blocked_pattern", "String literal contains dangerous pattern: " ++ src,
         some ("error")⟩)) ++
      (if s.length > 10000 then
        [⟨"complexity_limit",
          "String literal too long (" ++ toString s.length ++ " characters)",
          some ("warning")⟩]
      else [])
  | _ => []

/-- validateObjectExpression: property-count cap. -/
def validateObjectV (props : List Node) : List Violation :=
  if props.length > 50 then
    [⟨"complexity_limit",
      "Object literal has too many properties (" ++ toString props.length ++ ")",
      some ("warning")⟩]
  else []

/-- applyBuiltInValidation: dispatch on the node type. -/
def builtinViolations (hasFn : String → Bool) : Node → List Violation
  | .identifier name => validateIdentifierV name
  | .member o p c => validateMemberV o p c
  | .call callee args => validateCallV hasFn callee args
  | .binary op _ _ => validateOperatorV op false
  | .unary op _ => validateOperatorV op true
  | .arrow params _ => validateArrowV params
  | .literal v => validateLiteralV v
  | .objectLit props => validateObjectV props
  | _ => []

mutual
/-- validateNode: reject unsupported variants without descending,
otherwise apply built-in rules and recurse into children in field order. -/
def validateNode (hasFn : String → Bool) (n : Node) : List Violation :=
  if supportedNodeTypes.contains (nodeType n) then
    builtinViolations hasFn n ++ validateKids hasFn n
  else
    [⟨"invalid_node_type",
      "Node type \x27" ++ nodeType n ++ "\x27 is not allowed",
      some ("error")⟩]

/-- Children traversal of the generic object walker, in field order. -/
def validateKids (hasFn : String → Bool) : Node → List Violation
  | .literal _ => []
  | .identifier _ => []
  | .member o p _ => validateNode hasFn o ++ validateNode hasFn p
  | .call callee args => validateNode hasFn callee ++ validateNodeList hasFn args
  | .unary _ a => validateNode hasFn a
  | .binary _ l r => validateNode hasFn l ++ validateNode hasFn r
  | .logical _ l r => validateNode hasFn l ++ validateNode hasFn r
  | .conditional t c a =>
      validateNode hasFn t ++ validateNode hasFn c ++ validateNode hasFn a
  | .arrayLit elems => validateOptList hasFn elems
  | .objectLit props => validateNodeList hasFn props
  | .property k v _ => validateNode hasFn k ++ validateNode hasFn v
  | .arrow params body => validateNodeList hasFn params ++ validateNode hasFn body
  | .other _ kids => validateNodeList hasFn kids

/-- Walk a list of child nodes. -/
def validateNodeList (hasFn : String → Bool) : List Node → List Violation
  | [] => []
  | n :: rest => validateNode hasFn n ++ validateNodeList hasFn rest

/-- Walk a list of optional child nodes (array holes are skipped). -/
def validateOptList (hasFn : String → Bool) : List (Option Node) → List Violation
  | [] => []
  | some n :: rest => validateNode hasFn n ++ validateOptList hasFn rest
  | none :: rest => validateOptList hasFn rest
end

/-- SecurityValidation result: valid iff the violation list is empty
(violations of either severity block). -/
structure SecurityValidation where
  isValid : Bool
  violations : List Violation
deriving DecidableEq, Repr

/-- SecurityValidator.validate, fresh-cache computation. -/
def securityValidate (hasFn : String → Bool) (n : Node) : SecurityValidation :=
  let vs := validateNode hasFn n
  ⟨vs.isEmpty, vs⟩

/-! ## JavaScript coercions and operators -/

/-- Nullish test (`== null`). -/
def isNullish : Value → Bool
  | .vUndefined => true
  | .vNull => true
  | _ => false

/-- JavaScript truthiness. -/
def truthy : Value → Bool
  | .vUndefined => false
  | .vNull => false
  | .vBool b => b
  | .vNum n =>
      match n with
      | .rat q => decide (q ≠ 0)
      | .nan => false
      | _ => true
  | .vStr s => decide (s ≠ "")
  | .vArr _ => true
  | .vObj _ => true

/-- ToPrimitive for arrays and objects: the default coercion reaches
`toString`, producing the array join or `[object Object]`. -/
def toPrimitiveV : Value → Value
  | .vArr l => .vStr (jsString (.vArr l))
  | .vObj _ => .vStr ("[object Object]")
  | v => v

/-- Canonical non-negative integer parse (array index shape). -/
def parseIndex (s : String) : Option Nat :=
  match s.data with
  | [] => none
  | ['0'] => some 0
  | c :: cs =>
      if c.isDigit && c != '0' && cs.all Char.isDigit then
        some ((c :: cs).foldl (fun acc d => acc * 10 + (d.toNat - 48)) 0)
      else none

/-- `Number(string)`: trimmed empty is 0; signed decimal integers and the
infinities are parsed; all other shapes (floats, hex, ...) are NaN in this
model — no claim exercises them. -/
def parseNumber (s : String) : JsNum :=
  let t := (s.data.dropWhile isSpaceChar).reverse.dropWhile isSpaceChar |>.reverse
  match t with
  | [] => .int 0
  | _ =>
    if t = "Infinity".data || t = "+Infinity".data then .posInf
    else if t = "-Infinity".data then .negInf
    else
      let (sign, digits) :=
        match t with
        | '-' :: rest => ((-1 : Int), rest)
        | '+' :: rest => ((1 : Int), rest)
        | rest => ((1 : Int), rest)
      if digits ≠ [] && digits.all Char.isDigit then
        .int (sign * (digits.foldl (fun acc d => acc * 10 + (d.toNat - 48 : Int)) 0))
      else .nan

/-- ToNumber. -/
def toNumber : Value → JsNum
  | .vUndefined => .nan
  | .vNull => .int 0
  | .vBool b => .int (cond b 1 0)
  | .vNum n => n
  | .vStr s => parseNumber s
  | .vArr l => parseNumber (jsString (.vArr l))
  | .vObj _ => .nan

/-- Number addition. -/
def numAdd : JsNum → JsNum → JsNum
  | .nan, _ => .nan
  | _, .nan => .nan
  | .posInf, .negInf => .nan
  | .negInf, .posInf => .nan
  | .posInf, _ => .posInf
  | _, .posInf => .posInf
  | .negInf, _ => .negInf
  | _, .negInf => .negInf
  | .rat a, .rat b => .rat (a + b)

/-- Number negation. -/
def numNeg : JsNum → JsNum
  | .rat a => .rat (-a)
  | .nan => .nan
  | .posInf => .negInf
  | .negInf => .posInf

/-- Number subtraction. -/
def numSub (a b : JsNum) : JsNum := numAdd a (numNeg b)

/-- Number multiplication. -/
def numMul : JsNum → JsNum → JsNum
  | .nan, _ => .nan
  | _, .nan => .nan
  | .rat a, .rat b => .rat (a * b)
  | .rat a, .posInf => if a = 0 then .nan else if a > 0 then .posInf else .negInf
  | .rat a, .negInf => if a = 0 then .nan else if a > 0 then .negInf else .posInf
  | .posInf, .rat b => if b = 0 then .nan else if b > 0 then .posInf else .negInf
  | .negInf, .rat b => if b = 0 then .nan else if b > 0 then .negInf else .posInf
  | .posInf, .posInf => .posInf
  | .posInf, .negInf => .negInf
  | .negInf, .posInf => .negInf
  | .negInf, .negInf => .posInf

/-- Number division (IEEE-754 style signs; rationals are exact where
doubles would round — no claim depends on rounding). -/
def numDiv : JsNum → JsNum → JsNum
  | .nan, _ => .nan
  | _, .nan => .nan
  | .rat a, .rat b =>
      if b = 0 then (if a = 0 then .nan else if a > 0 then .posInf else .negInf)
      else .rat (a / b)
  | .rat _, .posInf => .rat 0
  | .rat _, .negInf => .rat 0
  | .posInf, .rat b => if b ≥ 0 then .posInf else .negInf
  | .negInf, .rat b => if b ≥ 0 then .negInf else .posInf
  | _, _ => .nan

/-- Number remainder (JS `%`). -/
def numMod : JsNum → JsNum → JsNum
  | .rat a, .rat b =>
      if b = 0 then .nan
      else .rat (a - b * ((a / b).floor + if (a / b) < (a / b).floor then 1 else 0))
  | .rat a, .posInf => .rat a
  | .rat a, .negInf => .rat a
  | _, _ => .nan

/-- Number exponentiation; only integral exponents are modelled exactly
(`x ** 0` is 1 even for NaN, as in the host); non-integral exponents are
NaN in this model — no claim exercises them. -/
def numPow : JsNum → JsNum → JsNum
  | b, .rat e =>
      if e = 0 then .int 1
      else if e.den = 1 then
        match b with
        | .rat a =>
            if e.num ≥ 0 then .rat (a ^ e.num.toNat)
            else if a = 0 then .posInf
            else .rat (1 / a ^ (-e.num).toNat)
        | .nan => .nan
        | .posInf => if e.num > 0 then .posInf else .rat 0
        | .negInf =>
            if e.num > 0 then (if e.num % 2 = 0 then .posInf else .negInf)
            else .rat 0
      else .nan
  | _, .nan => .nan
  | .rat a, .posInf => if a = 1 ∨ a = -1 then .nan else if a > 1 ∨ a < -1 then .posInf else .rat 0
  | .rat a, .negInf => if a = 1 ∨ a = -1 then .nan else if a > 1 ∨ a < -1 then .rat 0 else .posInf
  | .nan, _ => .nan
  | .posInf, .posInf => .posInf
  | .posInf, .negInf => .rat 0
  | .negInf, .posInf => .posInf
  | .negInf, .negInf => .rat 0

/-- Strict number equality (NaN is not equal to itself). -/
def numStrictEq : JsNum → JsNum → Bool
  | .rat a, .rat b => a == b
  | .posInf, .posInf => true
  | .negInf, .negInf => true
  | _, _ => false

/-- Numeric less-than (false whenever NaN is involved). -/
def numLt : JsNum → JsNum → Bool
  | .rat a, .rat b => a < b
  | .rat _, .posInf => true
  | .negInf, .rat _ => true
  | .negInf, .posInf => true
  | _, _ => false

/-- Numeric less-or-equal (false whenever NaN is involved). -/
def numLe (a b : JsNum) : Bool :=
  match a, b with
  | .nan, _ => false
  | _, .nan => false
  | x, y => numLt x y || numStrictEq x y

/-- JavaScript `+`. -/
def jsAdd (l r : Value) : Value :=
  let lp := toPrimitiveV l
  let rp := toPrimitiveV r
  match lp, rp with
  | .vStr a, _ => .vStr (a ++ jsString rp)
  | _, .vStr b => .vStr (jsString lp ++ b)
  | _, _ => .vNum (numAdd (toNumber lp) (toNumber rp))

/-- Strict equality (`===`).  Reference identity of arrays/objects is not
modelled; two array/object operands compare unequal, which matches the
host for the distinct literals appearing in this development. -/
def strictEq : Value → Value → Bool
  | .vUndefined, .vUndefined => true
  | .vNull, .vNull => true
  | .vBool a, .vBool b => a == b
  | .vNum a, .vNum b => numStrictEq a b
  | .vStr a, .vStr b => a == b
  | _, _ => false

/-- Loose equality on primitives. -/
def primLooseEq : Value → Value → Bool
  | .vUndefined, .vUndefined => true
  | .vUndefined, .vNull => true
  | .vNull, .vUndefined => true
  | .vNull, .vNull => true
  | .vUndefined, _ => false
  | _, .vUndefined => false
  | .vNull, _ => false
  | _, .vNull => false
  | .vStr a, .vStr b => a == b
  | x, y => numStrictEq (toNumber x) (toNumber y)

/-- Loose equality (`==`): objects coerce to primitives, except when both
sides are objects (reference comparison, modelled as unequal). -/
def looseEq (l r : Value) : Bool :=
  match l, r with
  | .vArr _, .vArr _ => false
  | .vArr _, .vObj _ => false
  | .vObj _, .vArr _ => false
  | .vObj _, .vObj _ => false
  | _, _ => primLooseEq (toPrimitiveV l) (toPrimitiveV r)

/-- Abstract relational comparison: both strings lexicographic, else
numeric. -/
def jsLtV (l r : Value) : Bool :=
  match toPrimitiveV l, toPrimitiveV r with
  | .vStr a, .vStr b => decide (a < b)
  | x, y => numLt (toNumber x) (toNumber y)

/-- Abstract relational `<=`. -/
def jsLeV (l r : Value) : Bool :=
  match toPrimitiveV l, toPrimitiveV r with
  | .vStr a, .vStr b => decide (a ≤ b)
  | x, y => numLe (toNumber x) (toNumber y)

/-- The `in` operator: membership among own keys (arrays: canonical
indices and `length`).  Prototype chains are not modelled.  Non-object
right operands raise, as in the host. -/
def inOp (l r : Value) : Except String Value :=
  match r with
  | .vObj kvs => .ok (.vBool ((kvs.map Prod.fst).contains (jsString l)))
  | .vArr elems =>
      let k := jsString l
      .ok (.vBool ((parseIndex k).any (fun i => i < elems.length) || k == "length"))
  | _ => .error ("Cannot use \x27in\x27 operator to search for \x27" ++ jsString l ++ "\x27")

/-- executeBinaryExpression operator dispatch (operands already
evaluated). -/
def evalBinary (op : String) (l r : Value) : Except String Value :=
  if op == "+" then .ok (jsAdd l r)
  else if op == "-" then .ok (.vNum (numSub (toNumber l) (toNumber r)))
  else if op == "*" then .ok (.vNum (numMul (toNumber l) (toNumber r)))
  else if op == "/" then .ok (.vNum (numDiv (toNumber l) (toNumber r)))
  else if op == "%" then .ok (.vNum (numMod (toNumber l) (toNumber r)))
  else if op == "**" then .ok (.vNum (numPow (toNumber l) (toNumber r)))
  else if op == "==" then .ok (.vBool (looseEq l r))
  else if op == "!=" then .ok (.vBool (!looseEq l r))
  else if op == "===" then .ok (.vBool (strictEq l r))
  else if op == "!==" then .ok (.vBool (!strictEq l r))
  else if op == "<" then .ok (.vBool (jsLtV l r))
  else if op == "<=" then .ok (.vBool (jsLeV l r))
  else if op == ">" then .ok (.vBool (jsLtV r l))
  else if op == ">=" then .ok (.vBool (jsLeV r l))
  else if op == "in" then inOp l r
  else .error ("Unsupported binary operator: " ++ op)

/-- executeUnaryExpression operator dispatch. -/
def evalUnary (op : String) (a : Value) : Except String Value :=
  if op == "+" then .ok (.vNum (toNumber a))
  else if op == "-" then .ok (.vNum (numNeg (toNumber a)))
  else if op == "!" then .ok (.vBool (!truthy a))
  else if op == "typeof" then .ok (.vStr (typeofString a))
  else if op == "void" then .ok .vUndefined
  else .error ("Unsupported unary operator: " ++ op)

/-! ## AST executor (src/core/executor.ts) -/

/-- Insertion-ordered map update (JS `Map.set` / property assignment):
replace in place when the key exists, append otherwise. -/
def assocSet (l : List (String × Value)) (k : String) (v : Value) :
    List (String × Value) :=
  match l with
  | [] => [(k, v)]
  | (k0, v0) :: rest =>
      if k0 == k then (k0, v) :: rest else (k0, v0) :: assocSet rest k v

/-- Caller context: a pure mapping from name to value (own keys). -/
abbrev Ctx := List (String × Value)

/-- Executor instance state: the bounded property cache.  The statistics
counters are not modelled (no claim reads them). -/
structure ExecState where
  cache : List (String × Value)
  cacheSize : Nat
deriving Repr

/-- A fresh executor state. -/
def initExecState : ExecState := ⟨[], 0⟩

/-- Property cache capacity. -/
def maxPropCacheSize : Nat := 1000

/-- Stack-depth cap (default options). -/
def maxStackDepth : Nat := 50

/-- setCached: evict the oldest entry when at capacity, then insert. -/
def setCached (st : ExecState) (k : String) (v : Value) : ExecState :=
  let st1 :=
    if st.cacheSize ≥ maxPropCacheSize then
      match st.cache with
      | [] => st
      | _ :: tl => ⟨tl, st.cacheSize - 1⟩
    else st
  ⟨assocSet st1.cache k v, st1.cacheSize + 1⟩

/-- The runtime property denylist declared inline in safePropertyAccess
(nine names; a strict subset of the validator denylist). -/
def runtimeBlockedProps : List String :=
  ["constructor", "prototype", "__proto__", "__defineGetter__",
   "__defineSetter__", "__lookupGetter__", "__lookupSetter__",
   "valueOf", "toString"]

/-- Raw host property read `object[property]`: own-key lookup for objects,
canonical indices for arrays and strings.  Host prototype chains are not
modelled (no claim inspects an inherited member value). -/
def getRawProperty (object property : Value) : Value :=
  match object with
  | .vObj kvs => ((kvs.lookup (jsString property)).getD .vUndefined)
  | .vArr elems =>
      match parseIndex (jsString property) with
      | some i => (elems.get? i).getD .vUndefined
      | none => .vUndefined
  | .vStr s =>
      match parseIndex (jsString property) with
      | some i =>
          match s.data.get? i with
          | some c => .vStr (String.mk [c])
          | none => .vUndefined
      | none => .vUndefined
  | _ => .vUndefined

/-- The receiver classes that skip the property cache
(`typeof object === 'object' && object !== null`). -/
def isObjectReceiver : Value → Bool
  | .vObj _ => true
  | .vArr _ => true
  | _ => false

/-- The `length` special case: array length, string length, otherwise
`object?.length ?? 0`. -/
def lengthOf (object : Value) : Value :=
  match object with
  | .vArr elems => .vNum (.int elems.length)
  | .vStr s => .vNum (.int s.length)
  | .vObj kvs =>
      match kvs.lookup ("length") with
      | some v => if isNullish v then .vNum (.int 0) else v
      | none => .vNum (.int 0)
  | _ => .vNum (.int 0)

/-- safePropertyAccess: cache probe for primitive receivers, runtime
property denylist, array bounds, `length` fast path, raw read with
primitive-result caching. -/
def safePropertyAccess (object property : Value) (st : ExecState) :
    Except String (Value × ExecState) :=
  let cacheKey := typeofString object ++ ":" ++ jsString property
  let cached : Option Value :=
    if isObjectReceiver object then none
    else
      match st.cache.lookup cacheKey with
      | some c => if isNullish (.vBool true) then none else
          (match c with
           | .vUndefined => none  -- `cached !== undefined` treats stored undefined as a miss
           | c' => some c')
      | none => none
  match cached with
  | some c => .ok (c, st)
  | none =>
    -- runtime denylist
    let blockedHit :=
      match property with
      | .vStr p => runtimeBlockedProps.contains p
      | _ => false
    if blockedHit then
      .error ("Property \x27" ++ jsString property ++
        "\x27 is blocked for security reasons")
    else
      -- array bounds: numeric index out of range yields undefined
      let outOfBounds :=
        match object, property with
        | .vArr elems, .vNum idx =>
            numLt idx (.int 0) || numLe (.int elems.length) idx
        | _, _ => false
      if outOfBounds then .ok (.vUndefined, st)
      else if (match property with | .vStr p => p == "length" | _ => false) then
        let r := lengthOf object
        .ok (r, setCached st cacheKey r)
      else
        let r := getRawProperty object property
        if isObjectReceiver r then .ok (r, st)
        else .ok (r, setCached st cacheKey r)

/-- executeIdentifier: the context mapping shadows the built-in scalar
constants; unresolved names are undefined. -/
def executeIdentifier (name : String) (ctx : Ctx) : Value :=
  match ctx.lookup name with
  | some v => v
  | none =>
    if name == "undefined" then .vUndefined
    else if name == "null" then .vNull
    else if name == "true" then .vBool true
    else if name == "false" then .vBool false
    else if name == "Infinity" then .vNum .posInf
    else if name == "NaN" then .vNum .nan
    else .vUndefined

/-- A registered safe function. -/
structure SafeFn where
  name : String
  minArgs : Nat := 0
  maxArgs : Option Nat := none
  fn : List Value → Except String Value
  typeChecks : List (Nat × (Value → Bool)) := []

/-- The function registry, by exact name. -/
abbrev Registry := String → Option SafeFn

/-- Registry membership, as the validator consults it. -/
def regHas (reg : Registry) : String → Bool := fun n => (reg n).isSome

/-- validateFunctionCall: arity window (method calls relax the minimum by
one) and positional type checks. -/
def validateFunctionCall (func : SafeFn) (args : List Value)
    (isMethodCall : Bool) : Except String Unit :=
  let effectiveMin := if isMethodCall then func.minArgs - 1 else func.minArgs
  if args.length < effectiveMin then
    .error ("Function \x27" ++ func.name ++ "\x27 requires at least " ++
      toString effectiveMin ++ " arguments, got " ++ toString args.length)
  else
    match func.maxArgs with
    | some m =>
        if args.length > m then
          .error ("Function \x27" ++ func.name ++ "\x27 accepts at most " ++
            toString m ++ " arguments, got " ++ toString args.length)
        else typeCheckArgs func args
    | none => typeCheckArgs func args
where
  typeCheckArgs (func : SafeFn) (args : List Value) : Except String Unit :=
    if func.typeChecks.all (fun p =>
        p.1 ≥ args.length || (args.get? p.1).all p.2) then
      .ok ()
    else
      .error ("Function \x27" ++ func.name ++ "\x27 argument has invalid type")

/-- executeFunction: registry lookup, arity validation, invocation with
error rewrapping. -/
def executeFunction (reg : Registry) (name : String) (args : List Value) :
    Except String Value := do
  match reg name with
  | none => .error ("Function \x27" ++ name ++ "\x27 is not defined")
  | some f =>
      let _ ← validateFunctionCall f args false
      match f.fn args with
      | .ok v => .ok v
      | .error e => .error ("Error in function \x27" ++ name ++ "\x27: " ++ e)

/-- executeMethod: the receiver becomes the first argument. -/
def executeMethod (reg : Registry) (object : Value) (methodName : String)
    (args : List Value) : Except String Value := do
  match reg methodName with
  | none => .error ("Method \x27" ++ methodName ++ "\x27 is not defined")
  | some f =>
      let allArgs := object :: args
      let _ ← validateFunctionCall f allArgs true
      match f.fn allArgs with
      | .ok v => .ok v
      | .error e => .error ("Error in method \x27" ++ methodName ++ "\x27: " ++ e)

/-- Identifier-shaped character run (first alpha/underscore/dollar, rest
alphanumeric/underscore/dollar). -/
def identCharsOk : List Char → Bool
  | [] => false
  | c :: rest =>
      (c.isAlpha || c == '_' || c == '$') &&
        rest.all (fun d => d.isAlphanum || d == '_' || d == '$')

/-- A valid JavaScript identifier name (the callback evaluator's check). -/
def isJsIdentName (s : String) : Bool := identCharsOk s.data

/-- validateArrowFunction of the callback evaluator: at most three
plain-identifier parameters with valid names, and a body accepted by the
security validator. -/
def validateArrowFunctionCB (reg : Registry) (params : List Node)
    (body : Node) : Bool :=
  params.length ≤ 3 &&
  params.all (fun p =>
    match p with
    | .identifier nm => isJsIdentName nm
    | _ => false) &&
  (securityValidate (regHas reg) body).isValid

/-- Positional parameter binding of the callback context (a spread copy of
the base context with per-parameter assignments). -/
def bindParams (base : Ctx) (params : List Node) (cbArgs : List Value) : Ctx :=
  (params.enum.foldl (fun acc pi =>
    match pi.2 with
    | .identifier nm =>
        if pi.1 < cbArgs.length then
          assocSet acc nm ((cbArgs.get? pi.1).getD .vUndefined)
        else acc
    | _ => acc) base)

/-- Argument slot of a call being dispatched to the callback engine:
arrow arguments stay as AST, the rest are evaluated values. -/
inductive CallArg where
  | val (v : Value)
  | ast (n : Node)

/-- Message used when the model runs out of fuel (every mutual call
consumes one unit; all concrete runs below use ample fuel, so this branch
is unreachable in them). -/
def modelFuelMsg : String := "model interpreter fuel exhausted"

mutual
/-- executeNode: the per-variant tree walker.  `fuel` makes the
interpreter total; `depth` models the execution-stack length checked
against the stack cap (the wall-clock timeout poll is not modelled). -/
def executeNode (reg : Registry) : Nat → Nat → Node → Ctx → ExecState →
    Except String (Value × ExecState)
  | 0, _, _, _, _ => .error modelFuelMsg
  | f + 1, depth, n, ctx, st =>
    if depth ≥ maxStackDepth then
      .error ("Maximum stack depth exceeded (" ++ toString maxStackDepth ++ ")")
    else
      match n with
      | .literal v => .ok (v, st)
      | .identifier name => .ok (executeIdentifier name ctx, st)
      | .member o p computed => do
          let (object, st1) ← executeNode reg f (depth + 1) o ctx st
          if isNullish object then .ok (.vUndefined, st1)
          else if computed then do
            let (pv, st2) ← executeNode reg f (depth + 1) p ctx st1
            safePropertyAccess object pv st2
          else
            match p with
            | .identifier pname => safePropertyAccess object (.vStr pname) st1
            | _ => .error ("Invalid property access")
      | .call callee args => executeCall reg f depth callee args ctx st
      | .binary op l r => do
          let (lv, st1) ← executeNode reg f (depth + 1) l ctx st
          let (rv, st2) ← executeNode reg f (depth + 1) r ctx st1
          let v ← evalBinary op lv rv
          .ok (v, st2)
      | .logical op l r => do
          let (lv, st1) ← executeNode reg f (depth + 1) l ctx st
          if op == "&&" then
            if truthy lv then executeNode reg f (depth + 1) r ctx st1
            else .ok (lv, st1)
          else if op == "||" then
            if truthy lv then .ok (lv, st1)
            else executeNode reg f (depth + 1) r ctx st1
          else if op == "??" then
            if isNullish lv then executeNode reg f (depth + 1) r ctx st1
            else .ok (lv, st1)
          else .error ("Unsupported logical operator: " ++ op)
      | .conditional t c a => do
          let (tv, st1) ← executeNode reg f (depth + 1) t ctx st
          if truthy tv then executeNode reg f (depth + 1) c ctx st1
          else executeNode reg f (depth + 1) a ctx st1
      | .unary op a => do
          let (av, st1) ← executeNode reg f (depth + 1) a ctx st
          let v ← evalUnary op av
          .ok (v, st1)
      | .arrayLit elems => do
          let (vs, st1) ← executeElems reg f (depth + 1) elems ctx st
          .ok (.vArr vs, st1)
      | .objectLit props => do
          let (kvs, st1) ← executeProps reg f (depth + 1) props ctx st []
          .ok (.vObj kvs, st1)
      | nUnsupported => .error ("Unsupported node type: " ++ nodeType nUnsupported)
termination_by structural f _ _ _ _ => f


/-- executeCallExpression. -/
def executeCall (reg : Registry) : Nat → Nat → Node → List Node → Ctx →
    ExecState → Except String (Value × ExecState)
  | 0, _, _, _, _, _ => .error modelFuelMsg
  | f + 1, depth, callee, args, ctx, st =>
    match callee with
    | .identifier name => do
        let (argVals, st1) ← executeArgs reg f (depth + 1) args ctx st
        let v ← executeFunction reg name argVals
        .ok (v, st1)
    | .member mo mp mc =>
        match getMethodNameV (.member mo mp mc) with
        | none => .error ("Invalid method call")
        | some m =>
          let qualified :=
            match getFullMethodNameV (.member mo mp mc) with
            | some fq => if (reg fq).isSome then some fq else none
            | none => none
          match qualified with
          | some fq => do
              let (argVals, st1) ← executeArgs reg f (depth + 1) args ctx st
              let v ← executeFunction reg fq argVals
              .ok (v, st1)
          | none => do
              let (object, st1) ← executeNode reg f (depth + 1) mo ctx st
              match object with
              | .vArr elems =>
                  if callbackMethods.contains m then do
                    let (cargs, st2) ← evalCallArgs reg f (depth + 1) args ctx st1
                    executeCallbackMethod reg f elems m cargs ctx st2
                  else do
                    let (argVals, st2) ← executeArgs reg f (depth + 1) args ctx st1
                    let v ← executeMethod reg object m argVals
                    .ok (v, st2)
              | _ => do
                  let (argVals, st2) ← executeArgs reg f (depth + 1) args ctx st1
                  let v ← executeMethod reg object m argVals
                  .ok (v, st2)
    | _ => .error ("Unsupported function call type")
termination_by structural f _ _ _ _ _ => f


/-- Left-to-right evaluation of call arguments. -/
def executeArgs (reg : Registry) : Nat → Nat → List Node → Ctx → ExecState →
    Except String (List Value × ExecState)
  | 0, _, _, _, _ => .error modelFuelMsg
  | _ + 1, _, [], _, st => .ok ([], st)
  | f + 1, depth, a :: rest, ctx, st => do
      let (v, st1) ← executeNode reg f depth a ctx st
      let (vs, st2) ← executeArgs reg f depth rest ctx st1
      .ok (v :: vs, st2)
termination_by structural f _ _ _ _ => f


/-- Argument evaluation for callback methods: arrows pass unevaluated. -/
def evalCallArgs (reg : Registry) : Nat → Nat → List Node → Ctx → ExecState →
    Except String (List CallArg × ExecState)
  | 0, _, _, _, _ => .error modelFuelMsg
  | _ + 1, _, [], _, st => .ok ([], st)
  | f + 1, depth, a :: rest, ctx, st =>
      match a with
      | .arrow params body => do
          let (vs, st1) ← evalCallArgs reg f depth rest ctx st
          .ok (.ast (.arrow params body) :: vs, st1)
      | nonArrow => do
          let (v, st1) ← executeNode reg f depth nonArrow ctx st
          let (vs, st2) ← evalCallArgs reg f depth rest ctx st1
          .ok (.val v :: vs, st2)
termination_by structural f _ _ _ _ => f


/-- Left-to-right evaluation of array elements (holes yield undefined). -/
def executeElems (reg : Registry) : Nat → Nat → List (Option Node) → Ctx →
    ExecState → Except String (List Value × ExecState)
  | 0, _, _, _, _ => .error modelFuelMsg
  | _ + 1, _, [], _, st => .ok ([], st)
  | f + 1, depth, e :: rest, ctx, st => do
      let (v, st1) ←
        match e with
        | some en => executeNode reg f depth en ctx st
        | none => .ok (.vUndefined, st)
      let (vs, st2) ← executeElems reg f depth rest ctx st1
      .ok (v :: vs, st2)
termination_by structural f _ _ _ _ => f


/-- Object-literal properties in textual order; duplicate keys keep the
first position and the last value (JS assignment into the result). -/
def executeProps (reg : Registry) : Nat → Nat → List Node → Ctx → ExecState →
    List (String × Value) → Except String (List (String × Value) × ExecState)
  | 0, _, _, _, _, _ => .error modelFuelMsg
  | _ + 1, _, [], _, st, acc => .ok (acc, st)
  | f + 1, depth, p :: rest, ctx, st, acc =>
      match p with
      | .property k v computed => do
          let (key, st1) ←
            if computed then do
              let (kv, stK) ← executeNode reg f depth k ctx st
              Except.ok (jsString kv, stK)
            else
              match k with
              | .identifier nm => Except.ok (nm, st)
              | .literal lv => Except.ok (jsString lv, st)
              | _ => Except.error ("Invalid property key")
          let (pv, st2) ← executeNode reg f depth v ctx st1
          executeProps reg f depth rest ctx st2 (assocSet acc key pv)
      | _ => .error ("Unsupported object property type")
termination_by structural f _ _ _ _ _ => f


/-- executeCallback of the callback evaluator: validate the arrow, bind
parameters on a copy of the base context, and re-enter the executor with
a fresh stack. -/
def executeCallbackCB (reg : Registry) : Nat → List Node → Node →
    List Value → Ctx → ExecState → Except String (Value × ExecState)
  | 0, _, _, _, _, _ => .error modelFuelMsg
  | f + 1, params, body, cbArgs, baseCtx, st =>
    if !validateArrowFunctionCB reg params body then
      .error ("Invalid or unsafe arrow function")
    else
      executeNode reg f 0 body (bindParams baseCtx params cbArgs) st
termination_by structural f _ _ _ _ _ => f


/-- executeCallbackMethod: dispatch a callback method to the array
operations.  The first evaluated argument must be an arrow AST node. -/
def executeCallbackMethod (reg : Registry) : Nat → List Value → String →
    List CallArg → Ctx → ExecState → Except String (Value × ExecState)
  | 0, _, _, _, _, _ => .error modelFuelMsg
  | f + 1, arr, m, cargs, ctx, st =>
    match cargs with
    | [] => .error (m ++ " requires a callback argument")
    | first :: restArgs =>
      match first with
      | .ast (.arrow params body) =>
          if m == "filter" then do
            let (kept, st1) ← opFilter reg f arr params body ctx st 0 arr
            .ok (.vArr kept, st1)
          else if m == "map" then do
            let (vs, st1) ← opMap reg f arr params body ctx st 0 arr
            .ok (.vArr vs, st1)
          else if m == "find" then opFind reg f arr params body ctx st 0 arr
          else if m == "some" then opSome reg f arr params body ctx st 0 arr
          else if m == "every" then opEvery reg f arr params body ctx st 0 arr
          else if m == "reduce" then
            match restArgs with
            | [] => opReduce reg f arr params body ctx st 0 .vUndefined arr
            | a :: _ =>
                match a with
                | .val v => opReduce reg f arr params body ctx st 0 v arr
                | .ast _ =>
                    .error ("model gap: arrow passed as a non-callback argument")
          else .error ("Unsupported callback method: " ++ m)
      | _ => .error (m ++ " requires an arrow function callback")
termination_by structural f _ _ _ _ _ => f


/-- filter: erroring elements are excluded; state changes of an erroring
callback are rolled back (no claim reads them). -/
def opFilter (reg : Registry) : Nat → List Value → List Node → Node → Ctx →
    ExecState → Nat → List Value → Except String (List Value × ExecState)
  | 0, _, _, _, _, _, _, _ => .error modelFuelMsg
  | _ + 1, _, _, _, _, st, _, [] => .ok ([], st)
  | f + 1, arr, params, body, ctx, st, i, x :: rest =>
      match executeCallbackCB reg f params body
          [x, .vNum (.int i), .vArr arr] ctx st with
      | .ok (v, st1) => do
          let (kept, st2) ← opFilter reg f arr params body ctx st1 (i + 1) rest
          .ok (if truthy v then x :: kept else kept, st2)
      | .error _ => opFilter reg f arr params body ctx st (i + 1) rest
termination_by structural f _ _ _ _ _ _ _ => f


/-- map: erroring elements yield undefined. -/
def opMap (reg : Registry) : Nat → List Value → List Node → Node → Ctx →
    ExecState → Nat → List Value → Except String (List Value × ExecState)
  | 0, _, _, _, _, _, _, _ => .error modelFuelMsg
  | _ + 1, _, _, _, _, st, _, [] => .ok ([], st)
  | f + 1, arr, params, body, ctx, st, i, x :: rest =>
      match executeCallbackCB reg f params body
          [x, .vNum (.int i), .vArr arr] ctx st with
      | .ok (v, st1) => do
          let (vs, st2) ← opMap reg f arr params body ctx st1 (i + 1) rest
          .ok (v :: vs, st2)
      | .error _ => do
          let (vs, st2) ← opMap reg f arr params body ctx st (i + 1) rest
          .ok (.vUndefined :: vs, st2)
termination_by structural f _ _ _ _ _ _ _ => f


/-- find: erroring elements count as non-matching. -/
def opFind (reg : Registry) : Nat → List Value → List Node → Node → Ctx →
    ExecState → Nat → List Value → Except String (Value × ExecState)
  | 0, _, _, _, _, _, _, _ => .error modelFuelMsg
  | _ + 1, _, _, _, _, st, _, [] => .ok (.vUndefined, st)
  | f + 1, arr, params, body, ctx, st, i, x :: rest =>
      match executeCallbackCB reg f params body
          [x, .vNum (.int i), .vArr arr] ctx st with
      | .ok (v, st1) =>
          if truthy v then .ok (x, st1)
          else opFind reg f arr params body ctx st1 (i + 1) rest
      | .error _ => opFind reg f arr params body ctx st (i + 1) rest
termination_by structural f _ _ _ _ _ _ _ => f


/-- some: erroring elements count as false. -/
def opSome (reg : Registry) : Nat → List Value → List Node → Node → Ctx →
    ExecState → Nat → List Value → Except String (Value × ExecState)
  | 0, _, _, _, _, _, _, _ => .error modelFuelMsg
  | _ + 1, _, _, _, _, st, _, [] => .ok (.vBool false, st)
  | f + 1, arr, params, body, ctx, st, i, x :: rest =>
      match executeCallbackCB reg f params body
          [x, .vNum (.int i), .vArr arr] ctx st with
      | .ok (v, st1) =>
          if truthy v then .ok (.vBool true, st1)
          else opSome reg f arr params body ctx st1 (i + 1) rest
      | .error _ => opSome reg f arr params body ctx st (i + 1) rest
termination_by structural f _ _ _ _ _ _ _ => f


/-- every: an erroring element makes the result false immediately. -/
def opEvery (reg : Registry) : Nat → List Value → List Node → Node → Ctx →
    ExecState → Nat → List Value → Except String (Value × ExecState)
  | 0, _, _, _, _, _, _, _ => .error modelFuelMsg
  | _ + 1, _, _, _, _, st, _, [] => .ok (.vBool true, st)
  | f + 1, arr, params, body, ctx, st, i, x :: rest =>
      match executeCallbackCB reg f params body
          [x, .vNum (.int i), .vArr arr] ctx st with
      | .ok (v, st1) =>
          if truthy v then opEvery reg f arr params body ctx st1 (i + 1) rest
          else .ok (.vBool false, st1)
      | .error _ => .ok (.vBool false, st)
termination_by structural f _ _ _ _ _ _ _ => f


/-- reduce: erroring elements keep the prior accumulator; a missing
initial value seeds the accumulator with undefined. -/
def opReduce (reg : Registry) : Nat → List Value → List Node → Node → Ctx →
    ExecState → Nat → Value → List Value → Except String (Value × ExecState)
  | 0, _, _, _, _, _, _, _, _ => .error modelFuelMsg
  | _ + 1, _, _, _, _, st, _, acc, [] => .ok (acc, st)
  | f + 1, arr, params, body, ctx, st, i, acc, x :: rest =>
      match executeCallbackCB reg f params body
          [acc, x, .vNum (.int i), .vArr arr] ctx st with
      | .ok (v, st1) => opReduce reg f arr params body ctx st1 (i + 1) v rest
      | .error _ => opReduce reg f arr params body ctx st (i + 1) acc rest
termination_by structural f _ _ _ _ _ _ _ _ => f
end

/-- Result record of a single expression evaluation. -/
structure EvaluationResult where
  success : Bool
  value : Option Value := none
  error : Option String := none
  errorType : Option String := none
deriving Repr

/-- categorizeError: infer the error class from the message shape. -/
def categorizeError (e : String) : String :=
  let low := lowerChars e.data
  if hitsLiteral ("timeout".data) low then "timeout"
  else if hitsLiteral ("blocked".data) low || hitsLiteral ("security".data) low then
    "security"
  else if hitsLiteral ("type".data) low || hitsLiteral ("argument".data) low then
    "type"
  else if hitsLiteral ("syntax".data) low || hitsLiteral ("invalid".data) low then
    "syntax"
  else "runtime"

/-- ASTExecutor.execute: run the walker from a fresh stack and wrap the
outcome.  On an error the source keeps instance-state mutations made
before the throw; the model rolls them back (no claim reads them).
Metadata and the custom error handler are not modelled. -/
def astExecute (reg : Registry) (fuel : Nat) (n : Node) (ctx : Ctx)
    (st : ExecState) : EvaluationResult × ExecState :=
  match executeNode reg fuel 0 n ctx st with
  | .ok (v, st') => ({ success := true, value := some v }, st')
  | .error e =>
      ({ success := false, error := some e,
         errorType := some (categorizeError e) }, st)

/-! ## JSON encoding (used by the type registry) -/

/-- JSON string escaping (quotes, backslashes and the common control
characters; other code points pass through unchanged). -/
def jsonEscape (s : String) : String :=
  ⟨s.data.flatMap (fun c =>
    if c == '"' then ['\\', '"']
    else if c == '\\' then ['\\', '\\']
    else if c == '\n' then ['\\', 'n']
    else if c == '\t' then ['\\', 't']
    else if c == '\x0d' then ['\\', 'r']
    else [c])⟩

mutual
/-- `JSON.stringify`: none models the undefined result (undefined input);
NaN and the infinities encode as null. -/
def jsonStringify : Value → Option String
  | .vUndefined => none
  | .vNull => some ("null")
  | .vBool b => some (cond b ("true") "false")
  | .vNum n =>
      some (match n with
            | .rat q => if q.den = 1 then toString q.num else "<noninteger>"
            | _ => "null")
  | .vStr s => some ("\"" ++ jsonEscape s ++ "\"")
  | .vArr l => some ("[" ++ jsonArrayItems l ++ "]")
  | .vObj kvs => some (String.singleton lbrace ++ jsonObjectItems kvs ++
      String.singleton rbrace)

/-- Array items: undefined elements encode as null. -/
def jsonArrayItems : List Value → String
  | [] => ""
  | [v] => (jsonStringify v).getD ("null")
  | v :: rest => (jsonStringify v).getD ("null") ++ "," ++ jsonArrayItems rest

/-- Object entries: undefined-valued keys are omitted. -/
def jsonObjectItems : List (String × Value) → String
  | [] => ""
  | (k, v) :: rest =>
      match jsonStringify v with
      | none => jsonObjectItems rest
      | some sv =>
          let entry := "\"" ++ jsonEscape k ++ "\":" ++ sv
          match jsonObjectItems rest with
          | "" => entry
          | restStr => entry ++ "," ++ restStr
end

/-! ## Type registry (src/core/type-registry.ts) -/

/-- A registered type schema: property kinds and required names. -/
structure TypeSchema where
  stype : String := "object"
  properties : List (String × String)
  required : List String
deriving DecidableEq, Repr

/-- Type configuration: schema plus serialization strategy string. -/
structure TypeConfig where
  schema : TypeSchema
  serialization : String
deriving DecidableEq, Repr

/-- A registered type entry. -/
structure RegisteredType where
  name : String
  config : TypeConfig
deriving DecidableEq, Repr

/-- validatePropertyType: nullish passes; numbers must not be NaN;
objects are non-array; unknown kinds pass. -/
def validatePropertyType (v : Value) (expectedType : String) : Bool :=
  if isNullish v then true
  else if expectedType == "string" then
    (match v with | .vStr _ => true | _ => false)
  else if expectedType == "number" then
    (match v with
     | .vNum n => (match n with | .nan => false | _ => true)
     | _ => false)
  else if expectedType == "boolean" then
    (match v with | .vBool _ => true | _ => false)
  else if expectedType == "object" then
    (match v with | .vObj _ => true | _ => false)
  else if expectedType == "array" then
    (match v with | .vArr _ => true | _ => false)
  else true

/-- Own keys of a value (the `in` presence check on plain objects). -/
def ownKeys : Value → List String
  | .vObj kvs => kvs.map Prod.fst
  | _ => []

/-- hasRequiredProperties: every required name is present. -/
def hasRequiredProperties (v : Value) (required : List String) : Bool :=
  required.all (fun p => (ownKeys v).contains p)

/-- validateProperties: each declared property that is present must match
its kind. -/
def validateProperties (v : Value) (schema : TypeSchema) : Bool :=
  schema.properties.all (fun pk =>
    if (ownKeys v).contains pk.1 then
      match v with
      | .vObj kvs => validatePropertyType ((kvs.lookup pk.1).getD .vUndefined) pk.2
      | _ => true
    else true)

/-- matchesType: required presence first, then typed property checks. -/
def matchesType (v : Value) (config : TypeConfig) : Bool :=
  hasRequiredProperties v config.schema.required &&
    validateProperties v config.schema

/-- register: validates the name and config, removes any same-named
entry, then prepends (most recently registered wins).  The host-level
non-string/null guards are enforced by the type system here; an empty
serialization string is falsy and rejected like a missing one. -/
def registryRegister (name : String) (config : TypeConfig)
    (types : List RegisteredType) : Except String (List RegisteredType) :=
  if name = "" then
    .error ("Type name must be a non-empty string")
  else if config.serialization = "" then
    .error ("Type config must include schema and serialization strategy")
  else
    .ok (⟨name, config⟩ :: types.filter (fun t => t.name ≠ name))

/-- detectType: non-null, non-array objects only; first matching entry in
registration-reverse order wins. -/
def detectType (types : List RegisteredType) (v : Value) : Option String :=
  match v with
  | .vObj _ => (types.find? (fun t => matchesType v t.config)).map (fun t => t.name)
  | _ => none

/-- serialize: `json` JSON-encodes (an undefined input yields the
undefined value, as `JSON.stringify` does); `string` and every other
strategy — including `object` — fall to the host string coercion.  The
try/catch fallback of the source is unreachable here because the model
coercions are total (cyclic values are not representable). -/
def registrySerialize (types : List RegisteredType) (v : Value)
    (typeName : String) : Except String Value :=
  match types.find? (fun t => t.name == typeName) with
  | none => .error ("Unknown type: " ++ typeName)
  | some rt =>
      if rt.config.serialization == "json" then
        .ok (match jsonStringify v with
             | some s => .vStr s
             | none => .vUndefined)
      else
        .ok (.vStr (jsString v))

/-! ## Parser front-end (src/core/parser.ts) -/

/-- JS whitespace trim (ASCII portion; all inputs under study are ASCII). -/
def jsTrim (s : String) : String :=
  ⟨((s.data.dropWhile isSpaceChar).reverse.dropWhile isSpaceChar).reverse⟩

/-- One raw template-hole match: the untrimmed body with its start and
end indices, as the global regex produces them. -/
def scanTemplatesAux : Nat → List Char → Nat → List (List Char × Nat × Nat)
  | 0, _, _ => []
  | n + 1, cs, pos =>
    match cs with
    | [] => []
    | c :: rest =>
      if c == lbrace then
        match rest with
        | c2 :: rest2 =>
          if c2 == lbrace then
            let body := rest2.takeWhile (fun d => !(d == lbrace) && !(d == rbrace))
            let after := rest2.drop body.length
            match after with
            | d1 :: d2 :: _ =>
              if d1 == rbrace && d2 == rbrace then
                let len := body.length + 4
                (body, pos, pos + len) ::
                  scanTemplatesAux n (cs.drop len) (pos + len)
              else scanTemplatesAux n rest (pos + 1)
            | _ => scanTemplatesAux n rest (pos + 1)
          else scanTemplatesAux n rest (pos + 1)
        | [] => []
      else scanTemplatesAux n rest (pos + 1)

/-- All raw matches of the hole regex (leftmost, non-overlapping). -/
def templateRawMatches (s : String) : List (List Char × Nat × Nat) :=
  scanTemplatesAux (s.data.length + 1) s.data 0

/-- hasTemplateExpressions: the hole regex matches somewhere (empty holes
count for detection). -/
def hasTemplateExpressions (s : String) : Bool :=
  !(templateRawMatches s).isEmpty

/-- An extracted template expression: trimmed body plus indices. -/
structure TemplateMatch where
  expression : String
  startIndex : Nat
  endIndex : Nat
deriving DecidableEq, Repr

/-- extractTemplateExpressions: trimmed bodies; empty bodies are skipped
(literal passthrough). -/
def extractTemplateExpressions (s : String) : List TemplateMatch :=
  (templateRawMatches s).filterMap (fun m =>
    let e := jsTrim ⟨m.1⟩
    if e = "" then none else some ⟨e, m.2.1, m.2.2⟩)

/-- Splice replacements in reverse source order (indices stay valid);
the replacer threads the caller state and may fail, aborting the splice.
Indices are code-point based, which agrees with the host UTF-16 indices
on the ASCII inputs under study. -/
def spliceLoop {σ : Type}
    (replacer : String → TemplateMatch → σ → Except String (String × σ)) :
    List TemplateMatch → List Char → σ → Except String (List Char × σ)
  | [], cs, s => .ok (cs, s)
  | m :: earlier, cs, s => do
      let (repl, s1) ← replacer m.expression m s
      let cs1 := (cs.take m.startIndex) ++ repl.data ++ (cs.drop m.endIndex)
      spliceLoop replacer earlier cs1 s1

/-- replaceTemplateExpressions: extract, then splice from the last match
to the first. -/
def replaceTemplateExpressions {σ : Type} (template : String)
    (replacer : String → TemplateMatch → σ → Except String (String × σ))
    (s0 : σ) : Except String (String × σ) :=
  match spliceLoop replacer (extractTemplateExpressions template).reverse
      template.data s0 with
  | .ok (cs, s) => .ok (⟨cs⟩, s)
  | .error e => .error e

/-- A parsed expression: the tree plus the metadata consulted by the
orchestrator caps.  Dependency/function/isSimple/memory metadata is not
modelled (no claim reads it). -/
structure ParsedExpression where
  ast : Node
  complexity : ℚ
  depth : Nat

/-- A parse front-end: the repository parser wrapping the external
acorn library. -/
abbrev ParseFn := String → Option ParsedExpression

/-- Per-node complexity weight (calculateComplexity's switch). -/
def complexityWeight : Node → ℚ
  | .call _ _ => 3
  | .member _ _ _ => 1
  | .binary _ _ _ => 1
  | .logical _ _ _ => 1
  | .conditional _ _ _ => 4
  | .arrayLit elems => 2 + (elems.length : ℚ) / 2
  | .objectLit props => 2 + (props.length : ℚ) / 2
  | .arrow _ _ => 5
  | _ => (1 : ℚ) / 2

mutual
/-- Sum of complexity weights over the walk. -/
def complexitySum (n : Node) : ℚ :=
  complexityWeight n + complexityKids n

/-- Weights of the children, in field order. -/
def complexityKids : Node → ℚ
  | .literal _ => 0
  | .identifier _ => 0
  | .member o p _ => complexitySum o + complexitySum p
  | .call callee args => complexitySum callee + complexityList args
  | .unary _ a => complexitySum a
  | .binary _ l r => complexitySum l + complexitySum r
  | .logical _ l r => complexitySum l + complexitySum r
  | .conditional t c a => complexitySum t + complexitySum c + complexitySum a
  | .arrayLit elems => complexityOptList elems
  | .objectLit props => complexityList props
  | .property k v _ => complexitySum k + complexitySum v
  | .arrow params body => complexityList params + complexitySum body
  | .other _ kids => complexityList kids

/-- Sum over a child list. -/
def complexityList : List Node → ℚ
  | [] => 0
  | n :: rest => complexitySum n + complexityList rest

/-- Sum over an optional child list (holes skipped by the walker). -/
def complexityOptList : List (Option Node) → ℚ
  | [] => 0
  | some n :: rest => complexitySum n + complexityOptList rest
  | none :: rest => complexityOptList rest
end

/-- Math.round to one decimal.  Every weight the walk adds is an integer
multiple of one half, so the sum times ten is an integer and rounding to
one decimal is the identity; it is modelled as such. -/
def roundTenths (q : ℚ) : ℚ := q

/-- calculateComplexity. -/
def calcComplexity (n : Node) : ℚ := roundTenths (complexitySum n)

mutual
/-- Maximum walk depth below a node (the root visits at depth 0). -/
def nodeHeight : Node → Nat
  | .literal _ => 0
  | .identifier _ => 0
  | .member o p _ => 1 + max (nodeHeight o) (nodeHeight p)
  | .call callee args => 1 + max (nodeHeight callee) (nodeHeightList args)
  | .unary _ a => 1 + nodeHeight a
  | .binary _ l r => 1 + max (nodeHeight l) (nodeHeight r)
  | .logical _ l r => 1 + max (nodeHeight l) (nodeHeight r)
  | .conditional t c a =>
      1 + max (nodeHeight t) (max (nodeHeight c) (nodeHeight a))
  | .arrayLit elems =>
      match nodeHeightOptList elems with
      | none => 0
      | some h => 1 + h
  | .objectLit props =>
      match props with
      | [] => 0
      | _ => 1 + nodeHeightList props
  | .property k v _ => 1 + max (nodeHeight k) (nodeHeight v)
  | .arrow params body =>
      1 + max (nodeHeightList params) (nodeHeight body)
  | .other _ kids =>
      match kids with
      | [] => 0
      | _ => 1 + nodeHeightList kids

/-- Maximum height over a child list. -/
def nodeHeightList : List Node → Nat
  | [] => 0
  | n :: rest => max (nodeHeight n) (nodeHeightList rest)

/-- Maximum height over an optional child list; none when every slot is
a hole. -/
def nodeHeightOptList : List (Option Node) → Option Nat
  | [] => none
  | some n :: rest =>
      match nodeHeightOptList rest with
      | none => some (nodeHeight n)
      | some h => some (max (nodeHeight n) h)
  | none :: rest => nodeHeightOptList rest
end

/-- calculateDepth. -/
def calcDepth (n : Node) : Nat := nodeHeight n

/-- Modelled from the spec: the external acorn parser (not part of this
repository; the spec treats the node tree as an input contract).  The
source wraps the input in parentheses, parses, and unwraps
Program → ExpressionStatement → expression.  This model covers the
fragment the claims need: a parenthesized bare identifier-shaped name
parses to an Identifier node (the spec's surface language binds every
such name, and its safety invariant applies `validate` to each denylist
entry as a bare identifier).  Inputs outside that fragment are beyond
the model and yield none. -/
def specAcornWrappedExpr (w : String) : Option Node :=
  match w.data with
  | '(' :: rest =>
      if rest.getLast? == some ')' then
        let inner := rest.dropLast
        if identCharsOk inner then some (.identifier ⟨inner⟩) else none
      else none
  | _ => none

/-- ASTParser.parse: trim, wrap, parse, unwrap, compute metadata.  The
parse memo cache is not modelled (parsing is deterministic). -/
def astParserParse (e : String) : Option ParsedExpression :=
  if e = "" then none
  else
    let trimmed := jsTrim e
    if trimmed = "" then none
    else
      match specAcornWrappedExpr ("(" ++ trimmed ++ ")") with
      | some ast => some ⟨ast, calcComplexity ast, calcDepth ast⟩
      | none => none

/-! ## Orchestrator (src/core/evaluator.ts) -/

/-- The evaluator options consulted by the claims (remaining options are
not modelled). -/
structure EvaluatorOptions where
  maxComplexity : ℚ := 100
  maxDepth : Nat := 10
  strictMode : Bool := true
  enableCaching : Bool := true

/-- The default options. -/
def defaultOptions : EvaluatorOptions := {}

/-- Kangaroo.evaluateExpression: parse, caps, strict validation, execute. -/
def kangarooEvaluateExpression (parseFn : ParseFn) (reg : Registry)
    (opts : EvaluatorOptions) (fuel : Nat) (expr : String) (ctx : Ctx)
    (st : ExecState) : EvaluationResult × ExecState :=
  match parseFn expr with
  | none =>
      ({ success := false, error := some ("Invalid syntax: " ++ expr),
         errorType := some ("syntax") }, st)
  | some parsed =>
      if parsed.complexity > opts.maxComplexity then
        ({ success := false,
           error := some ("Expression too complex (" ++ toString parsed.complexity ++
             " > " ++ toString opts.maxComplexity ++ ")"),
           errorType := some ("complexity") }, st)
      else if parsed.depth > opts.maxDepth then
        ({ success := false,
           error := some ("Expression too deep (" ++ toString parsed.depth ++
             " > " ++ toString opts.maxDepth ++ ")"),
           errorType := some ("complexity") }, st)
      else
        let validation := securityValidate (regHas reg) parsed.ast
        if opts.strictMode && !validation.isValid then
          ({ success := false,
             error := some ("Security violation: " ++
               String.intercalate ("; ") (validation.violations.map (fun v => v.message))),
             errorType := some ("security") }, st)
        else
          astExecute reg fuel parsed.ast ctx st

/-- Kangaroo.validate: per-expression syntax, caps and security findings;
valid iff no violation of any kind was collected. -/
def kangarooValidate (parseFn : ParseFn) (reg : Registry)
    (opts : EvaluatorOptions) (expression : String) : SecurityValidation :=
  if expression = "" then ⟨true, []⟩
  else
    let trimmed := jsTrim expression
    if trimmed = "" then ⟨true, []⟩
    else
      let exprs :=
        if hasTemplateExpressions trimmed then
          (extractTemplateExpressions trimmed).map (fun m => m.expression)
        else [trimmed]
      let all := exprs.flatMap (fun e =>
        if jsTrim e = "" then []
        else
          match parseFn e with
          | none =>
              [⟨"blocked_pattern", "Invalid syntax in expression: " ++ e, none⟩]
          | some parsed =>
              (if parsed.complexity > opts.maxComplexity then
                [⟨"complexity_limit",
                  "Expression too complex (" ++ toString parsed.complexity ++
                    " > " ++ toString opts.maxComplexity ++ ")", none⟩]
              else []) ++
              (if parsed.depth > opts.maxDepth then
                [⟨"depth_limit",
                  "Expression too deep (" ++ toString parsed.depth ++
                    " > " ++ toString opts.maxDepth ++ ")", none⟩]
              else []) ++
              (securityValidate (regHas reg) parsed.ast).violations)
      ⟨all.isEmpty, all⟩

/-- Escaping applied when a JSON-serialized value embeds in a template:
every backslash, then every double quote. -/
def escapeJsonEmbed (s : String) : String :=
  ⟨s.data.flatMap (fun c =>
    if c == '\\' then ['\\', '\\']
    else if c == '"' then ['\\', '"']
    else [c])⟩

/-- Kangaroo.serializeValue: nullish → empty; detected types serialize by
strategy with JSON-embedding escape; otherwise the string coercion. -/
def serializeValue (types : List RegisteredType) (v : Value) :
    Except String String :=
  if isNullish v then .ok ("")
  else
    match detectType types v with
    | some typeName => do
        let sv ← registrySerialize types v typeName
        match sv with
        | .vStr s =>
            (match types.find? (fun t => t.name == typeName) with
             | some rt =>
                 if rt.config.serialization == "json" then .ok (escapeJsonEmbed s)
                 else .ok s
             | none => .ok s)
        | _ => .error ("model gap: non-string serialization result")
    | none => .ok (jsString v)

/-- Result record of a template evaluation (the per-hole diagnostic list
is not modelled). -/
structure TemplateResult where
  success : Bool
  result : Option String := none
  error : Option String := none
deriving DecidableEq, Repr

/-- Insertion-ordered map update for the template cache. -/
def tmplCacheSet (l : List (String × TemplateResult)) (k : String)
    (v : TemplateResult) : List (String × TemplateResult) :=
  match l with
  | [] => [(k, v)]
  | (k0, v0) :: rest =>
      if k0 == k then (k0, v) :: rest else (k0, v0) :: tmplCacheSet rest k v

/-- Orchestrator instance state: executor state plus the template cache. -/
structure KangarooState where
  exec : ExecState
  templateCache : List (String × TemplateResult)
  templateCacheSize : Nat
deriving Repr

/-- A fresh orchestrator state. -/
def initKangarooState : KangarooState := ⟨initExecState, [], 0⟩

/-- Template cache capacity. -/
def maxTemplateCacheSize : Nat := 100

/-- Stable insertion sort (the model of `Array.prototype.sort` on the
ASCII key names under study). -/
def insertSorted (x : String) : List String → List String
  | [] => [x]
  | y :: ys => if x ≤ y then x :: y :: ys else y :: insertSorted x ys

/-- Sort a list of strings. -/
def sortStrings (l : List String) : List String := l.foldr insertSorted []

/-- getTemplateCacheKey: the template text plus the sorted, comma-joined
context key names — context values do not contribute. -/
def getTemplateCacheKey (template : String) (ctx : Ctx) : String :=
  template ++ "|" ++ String.intercalate (",") (sortStrings (ctx.map (fun p => p.1)))

/-- setTemplateCached: evict the oldest entry at capacity, then insert. -/
def setTemplateCached (ks : KangarooState) (k : String) (v : TemplateResult) :
    KangarooState :=
  let ks1 :=
    if ks.templateCacheSize ≥ maxTemplateCacheSize then
      match ks.templateCache with
      | [] => ks
      | _ :: tl => ⟨ks.exec, tl, ks.templateCacheSize - 1⟩
    else ks
  ⟨ks1.exec, tmplCacheSet ks1.templateCache k v, ks1.templateCacheSize + 1⟩

/-- The per-hole replacer closed over by evaluateTemplate: evaluate the
hole with the instance evaluateExpression, then stringify (nullish holes
render empty); a failed hole evaluation throws its error message. -/
def templateReplacer
    (evalExpr : String → Ctx → ExecState → EvaluationResult × ExecState)
    (serializeV : Value → Except String String) (ctx : Ctx) :
    String → TemplateMatch → ExecState → Except String (String × ExecState) :=
  fun exprStr _m est =>
    let (res, est') := evalExpr exprStr ctx est
    if res.success then
      match res.value with
      | some v =>
          if isNullish v then .ok ("", est')
          else
            match serializeV v with
            | .ok s => .ok (s, est')
            | .error e => .error e
      | none => .ok ("", est')
    else .error (res.error.getD (""))

/-- Kangaroo.evaluateTemplate: serve from the cache when enabled and
present; otherwise evaluate every hole (any failure aborts the whole
template), serialize and splice, and cache the successful result.  The
per-hole evaluator is the instance's evaluateExpression, passed as a
function.  On the error path the source keeps executor-state mutations
made before the throw; the model rolls them back (no claim reads them). -/
def evaluateTemplate
    (evalExpr : String → Ctx → ExecState → EvaluationResult × ExecState)
    (serializeV : Value → Except String String) (opts : EvaluatorOptions)
    (template : String) (ctx : Ctx) (ks : KangarooState) :
    TemplateResult × KangarooState :=
  let cacheKey := getTemplateCacheKey template ctx
  let cachedHit :=
    if opts.enableCaching then ks.templateCache.lookup cacheKey else none
  match cachedHit with
  | some r => (r, ks)
  | none =>
      let run := replaceTemplateExpressions template
        (templateReplacer evalExpr serializeV ctx) ks.exec
      match run with
      | .ok (resultStr, est') =>
          let tr : TemplateResult := { success := true, result := some resultStr }
          let ks' := { ks with exec := est' }
          if opts.enableCaching then (tr, setTemplateCached ks' cacheKey tr)
          else (tr, ks')
      | .error e =>
          ({ success := false, error := some e }, ks)

/-- The union result of Kangaroo.evaluate: a direct-expression result or
a template result. -/
inductive KangarooResult where
  | direct (r : EvaluationResult)
  | template (t : TemplateResult)
deriving Repr

/-- Kangaroo.evaluate: empty inputs succeed immediately; template inputs
take template mode; all else is direct evaluation.  Statistics are not
modelled. -/
def kangarooEvaluate (parseFn : ParseFn) (reg : Registry)
    (types : List RegisteredType) (opts : EvaluatorOptions) (fuel : Nat)
    (input : String) (ctx : Ctx) (ks : KangarooState) :
    KangarooResult × KangarooState :=
  if input = "" then (.direct { success := true, value := some (.vStr input) }, ks)
  else
    let trimmed := jsTrim input
    if trimmed = "" then
      (.direct { success := true, value := some (.vStr ("")) }, ks)
    else if hasTemplateExpressions trimmed then
      let (tr, ks') := evaluateTemplate
        (fun e c est => kangarooEvaluateExpression parseFn reg opts fuel e c est)
        (serializeValue types) opts trimmed ctx ks
      (.template tr, ks')
    else
      let (r, est') := kangarooEvaluateExpression parseFn reg opts fuel trimmed ctx ks.exec
      (.direct r, { ks with exec := est' })

/-! ## Concrete instances used by the theorems -/

/-- A registry with no entries (the function registry contributes nothing
to any run below: no registered function is ever invoked). -/
def noFns : Registry := fun _ => none

/-- A member chain of the given length hanging off a plain identifier. -/
def memberChain : Nat → Node
  | 0 => .identifier ("a")
  | n + 1 => .member (memberChain n) (.identifier ("p")) false

/-- An 11-deep member chain: the validator walk flags it with exactly one
warning-severity violation and nothing else. -/
def chain11 : Node := memberChain 11

/-- The C9 expression `a.length + b.length`. -/
def c9Expr : Node :=
  .binary ("+")
    (.member (.identifier ("a")) (.identifier ("length")) false)
    (.member (.identifier ("b")) (.identifier ("length")) false)

/-- The C9 context: two different strings of the same primitive type. -/
def c9Ctx : Ctx := [("a", .vStr ("hello")), ("b", .vStr ("hi"))]

/-- `[1,2,3].reduce((acc, x, i, arr) => acc + x, 0)` — the callback
declares all four reduce parameters. -/
def reduceFourParamExpr : Node :=
  .call
    (.member
      (.arrayLit [some (.literal (.vNum (.int 1))),
                  some (.literal (.vNum (.int 2))),
                  some (.literal (.vNum (.int 3)))])
      (.identifier ("reduce")) false)
    [.arrow [.identifier ("acc"), .identifier ("x"),
             .identifier ("i"), .identifier ("arr")]
       (.binary ("+") (.identifier ("acc")) (.identifier ("x"))),
     .literal (.vNum (.int 0))]

/-- `[1,2,3].reduce((acc, x) => acc + x, 0)` — the same fold with a
two-parameter callback. -/
def reduceTwoParamExpr : Node :=
  .call
    (.member
      (.arrayLit [some (.literal (.vNum (.int 1))),
                  some (.literal (.vNum (.int 2))),
                  some (.literal (.vNum (.int 3)))])
      (.identifier ("reduce")) false)
    [.arrow [.identifier ("acc"), .identifier ("x")]
       (.binary ("+") (.identifier ("acc")) (.identifier ("x"))),
     .literal (.vNum (.int 0))]

/-- The C3 registered type: strategy `object` (the repository test
"should correctly detect and serialize with object strategy"). -/
def testTypeConfig : TypeConfig :=
  ⟨⟨"object", [("id", "string"), ("value", "number")], ["id"]⟩, "object"⟩

/-- A registry holding only the C3 test type. -/
def testTypeRegistry : List RegisteredType := [⟨"TestType", testTypeConfig⟩]

/-- The C3 test value `{ id: 'test_123', value: 42 }`. -/
def testObjectValue : Value :=
  .vObj [("id", .vStr ("test_123")), ("value", .vNum (.int 42))]

/-- The C7 template `{{x}}` (braces written via escapes). -/
def c7Template : String := "\x7b\x7bx\x7d\x7d"

/-- First C7 context. -/
def c7Ctx1 : Ctx := [("x", .vStr ("1"))]

/-- Second C7 context: the same key set, a different value. -/
def c7Ctx2 : Ctx := [("x", .vStr ("2"))]

/-- First C7 call on a fresh instance. -/
def c7First : KangarooResult × KangarooState :=
  kangarooEvaluate astParserParse noFns [] defaultOptions 50 c7Template c7Ctx1
    initKangarooState

/-- Second C7 call on the same instance with the second context. -/
def c7Second : KangarooResult × KangarooState :=
  kangarooEvaluate astParserParse noFns [] defaultOptions 50 c7Template c7Ctx2
    c7First.2

/-- A C7 control run: the second context evaluated on a fresh instance. -/
def c7Fresh2 : KangarooResult × KangarooState :=
  kangarooEvaluate astParserParse noFns [] defaultOptions 50 c7Template c7Ctx2
    initKangarooState

/-- The C8 witness template `a {{y}} b`. -/
def c8Template : String := "a \x7b\x7by\x7d\x7d b"

/-- The C8 witness per-hole evaluator: every expression fails. -/
def c8FailingEval : String → Ctx → ExecState → EvaluationResult × ExecState :=
  fun _ _ est => ({ success := false, error := some ("boom"),
                    errorType := some ("runtime") }, est)

/-- Preconditions under which `Kangaroo.validate` on a bare name reaches
the identifier rule: the name is its own trim, contains no template hole,
and is identifier-shaped. -/
def identValidatePrepOk (s : String) : Bool :=
  (jsTrim s == s) && !(hasTemplateExpressions s) && isJsIdentName s


/-! ## Theorems -/

/-- C10: identifier resolution consults the caller's context before the
built-in constants — a context key (including one named after a scalar
constant) shadows the scalar meaning; absent names resolve to their
scalar meanings, and any other absent name yields undefined. -/
theorem c10_identifier_resolution (ctx : Ctx) :
    (∀ name v, ctx.lookup name = some v → executeIdentifier name ctx = v) ∧
    (ctx.lookup ("undefined") = none →
      executeIdentifier ("undefined") ctx = .vUndefined) ∧
    (ctx.lookup ("null") = none → executeIdentifier ("null") ctx = .vNull) ∧
    (ctx.lookup ("true") = none → executeIdentifier ("true") ctx = .vBool true) ∧
    (ctx.lookup ("false") = none →
      executeIdentifier ("false") ctx = .vBool false) ∧
    (ctx.lookup ("NaN") = none → executeIdentifier ("NaN") ctx = .vNum .nan) ∧
    (ctx.lookup ("Infinity") = none →
      executeIdentifier ("Infinity") ctx = .vNum .posInf) ∧
    (∀ name, ctx.lookup name = none →
      name ∉ (["undefined", "null", "true", "false", "NaN", "Infinity"] : List String) →
      executeIdentifier name ctx = .vUndefined) := by
  refine ⟨?_, ?_, ?_, ?_, ?_, ?_, ?_, ?_⟩
  · intro name v h
    simp [executeIdentifier, h]
  · intro h; simp [executeIdentifier, h]
  · intro h; simp [executeIdentifier, h]
  · intro h; simp [executeIdentifier, h]
  · intro h; simp [executeIdentifier, h]
  · intro h; simp [executeIdentifier, h]
  · intro h; simp [executeIdentifier, h]
  · intro name h hne
    simp only [List.mem_cons, List.mem_singleton, not_or] at hne
    obtain ⟨h1, h2, h3, h4, h5, h6, _⟩ := hne
    simp [executeIdentifier, h, h1, h2, h3, h4, h5, h6]

/-- C10 witness: a context key named `true` shadows the boolean; absent
`NaN` resolves to the NaN number; an absent plain name is undefined. -/
theorem c10_identifier_resolution_witness :
    executeIdentifier ("true") ([("true", .vNum (.int 7))]) = .vNum (.int 7) ∧
    executeIdentifier ("NaN") ([]) = .vNum .nan ∧
    executeIdentifier ("someName") ([]) = .vUndefined :=
  ⟨(c10_identifier_resolution _).1 _ _ rfl,
   (c10_identifier_resolution _).2.2.2.2.2.1 rfl,
   (c10_identifier_resolution _).2.2.2.2.2.2.2 _ rfl (by decide)⟩

/-- C9: on one executor, member-access results on primitive receivers are
cached under typeof-plus-property-name only, so `a.length + b.length`
with a = "hello", b = "hi" returns the cached 5 for the second access
and the expression yields 10 rather than 7. -/
theorem c9_property_cache_key_collision :
    (astExecute noFns 50 c9Expr c9Ctx initExecState).1 =
      { success := true, value := some (.vNum (.int 10)) } := by
  simp [astExecute, c9Expr, c9Ctx, executeNode, executeIdentifier,
    safePropertyAccess, typeofString, jsString, numToString, isObjectReceiver,
    isNullish, runtimeBlockedProps, lengthOf, getRawProperty, setCached,
    initExecState, maxPropCacheSize, assocSet, evalBinary, jsAdd, toPrimitiveV,
    toNumber, numAdd, JsNum.int, maxStackDepth, parseIndex, parseNumber,
    Bind.bind, Except.bind, List.lookup]
  norm_num [String.length]


/-- C2 (amended): at access time the executor enforces a runtime property
denylist of nine names (constructor, prototype, __proto__,
__defineGetter__, __defineSetter__, __lookupGetter__, __lookupSetter__,
valueOf, toString): for any receiver and any uncached access, reading one
of those names raises an error whose message categorizes as a
security-class runtime error.  The remaining ten names of the validator
denylist are not enforced at access time (see the counterexample). -/
theorem c2_amended (o : Value) (p : String) (st : ExecState)
    (hnn : isNullish o = false)
    (hp : p ∈ runtimeBlockedProps)
    (hcache : st.cache.lookup (typeofString o ++ ":" ++ p) = none) :
    safePropertyAccess o (.vStr p) st =
      .error ("Property \x27" ++ p ++ "\x27 is blocked for security reasons") ∧
    categorizeError ("Property \x27" ++ p ++ "\x27 is blocked for security reasons")
      = "security" := by
  constructor
  · simp [safePropertyAccess, jsString, hcache]
    exact fun hcon => absurd hp hcon
  · fin_cases hp <;> decide

/-- C2 witness: reading `constructor` on a plain object raises the
security-class error. -/
theorem c2_amended_witness :
    safePropertyAccess (.vObj []) (.vStr ("constructor")) initExecState =
      .error ("Property \x27constructor\x27 is blocked for security reasons") ∧
    categorizeError ("Property \x27constructor\x27 is blocked for security reasons")
      = "security" :=
  c2_amended (.vObj []) ("constructor") initExecState (by decide)
    (by decide) (by simp [initExecState])

/-- C2 counterexample: `hasOwnProperty` is in the spec's property
denylist, yet access-time enforcement does not raise on it — the read
returns normally (and its primitive result is cached). -/
theorem c2_counterexample :
    safePropertyAccess (.vObj []) (.vStr ("hasOwnProperty")) initExecState =
      .ok (.vUndefined, ⟨[("object:hasOwnProperty", .vUndefined)], 1⟩) := by
  simp [safePropertyAccess, jsString, typeofString, isObjectReceiver,
    runtimeBlockedProps, getRawProperty, lengthOf, setCached, initExecState,
    maxPropCacheSize, assocSet, isNullish, parseIndex, List.lookup]

/-- C3: with serialization strategy `object`, serialize falls into the
default branch and returns the string coercion `[object Object]`, not the
value itself — contradicting the repository test that expects the exact
object back (code bug at this input). -/
theorem c3_object_strategy_returns_string :
    detectType testTypeRegistry testObjectValue = some ("TestType") ∧
    registrySerialize testTypeRegistry testObjectValue ("TestType") =
      .ok (.vStr ("[object Object]")) ∧
    registrySerialize testTypeRegistry testObjectValue ("TestType") ≠
      .ok testObjectValue := by
  refine ⟨by decide, ?_, ?_⟩
  · simp [registrySerialize, testTypeRegistry, testTypeConfig, testObjectValue,
      jsString, List.find?]
  · simp [registrySerialize, testTypeRegistry, testTypeConfig, testObjectValue,
      jsString, List.find?]


/-- Helper: a successful register prepends the entry after removing any
same-named entry. -/
lemma registryRegister_ok {n : String} {c : TypeConfig}
    {ts r : List RegisteredType}
    (h : registryRegister n c ts = .ok r) :
    r = ⟨n, c⟩ :: ts.filter (fun t => t.name ≠ n) := by
  unfold registryRegister at h
  split_ifs at h
  all_goals cases h
  all_goals rfl

/-- C6: registering A then B puts B first, so when both schemas match a
value, detectType returns B's name (the later registration wins);
re-registering A removes its prior occurrence, prepends it, and
detectType then returns A's name. -/
theorem c6_later_registration_wins (r0 r1 r2 r3 : List RegisteredType)
    (A B : RegisteredType) (v : Value)
    (hA : registryRegister A.name A.config r0 = .ok r1)
    (hB : registryRegister B.name B.config r1 = .ok r2)
    (hre : registryRegister A.name A.config r2 = .ok r3)
    (hobj : ∃ kvs, v = .vObj kvs)
    (hmB : matchesType v B.config = true)
    (hmA : matchesType v A.config = true) :
    detectType r2 v = some B.name ∧ detectType r3 v = some A.name := by
  obtain ⟨kvs, rfl⟩ := hobj
  obtain rfl := registryRegister_ok hB
  obtain rfl := registryRegister_ok hre
  refine ⟨?_, ?_⟩
  · simp [detectType, List.find?, hmB]
  · simp [detectType, List.find?, hmA]

/-- C6 witness: two concrete entries whose schemas both match a concrete
object; detection returns the most recently registered name before and
after re-registration. -/
theorem c6_later_registration_wins_witness :
    detectType [⟨"B", ⟨⟨"object", [], ["x"]⟩, "string"⟩⟩,
                ⟨"A", ⟨⟨"object", [("x", "string")], ["x"]⟩, "json"⟩⟩]
        (.vObj [("x", .vStr ("1"))]) = some ("B") ∧
    detectType [⟨"A", ⟨⟨"object", [("x", "string")], ["x"]⟩, "json"⟩⟩,
                ⟨"B", ⟨⟨"object", [], ["x"]⟩, "string"⟩⟩]
        (.vObj [("x", .vStr ("1"))]) = some ("A") :=
  c6_later_registration_wins []
    [⟨"A", ⟨⟨"object", [("x", "string")], ["x"]⟩, "json"⟩⟩]
    [⟨"B", ⟨⟨"object", [], ["x"]⟩, "string"⟩⟩,
     ⟨"A", ⟨⟨"object", [("x", "string")], ["x"]⟩, "json"⟩⟩]
    [⟨"A", ⟨⟨"object", [("x", "string")], ["x"]⟩, "json"⟩⟩,
     ⟨"B", ⟨⟨"object", [], ["x"]⟩, "string"⟩⟩]
    ⟨"A", ⟨⟨"object", [("x", "string")], ["x"]⟩, "json"⟩⟩
    ⟨"B", ⟨⟨"object", [], ["x"]⟩, "string"⟩⟩
    (.vObj [("x", .vStr ("1"))])
    rfl rfl rfl
    ⟨_, rfl⟩ (by decide) (by decide)


/-- Helper: the validator walk on the 11-deep member chain yields exactly
one warning-severity violation. -/
lemma chain11_violations :
    validateNode (regHas noFns) chain11 =
      [⟨"depth_limit", "Property chain too deep (11 levels)", some ("warning")⟩] := by
  simp [chain11, memberChain, validateNode, validateKids, builtinViolations,
    validateMemberV, validateIdentifierV, getPropertyChainDepth, isProtoPollution,
    nodeType, supportedNodeTypes, blockedProperties, blockedIdentifiers, regHas,
    noFns]
  rfl

/-- C1 counterexample: the 11-deep member chain produces only
warning-severity violations, yet SecurityValidator.validate reports
isValid = false — warnings do block, contrary to the claim. -/
theorem c1_counterexample :
    ((validateNode (regHas noFns) chain11).all
      (fun v => v.severity == some ("warning"))) = true ∧
    validateNode (regHas noFns) chain11 ≠ [] ∧
    (securityValidate (regHas noFns) chain11).isValid = false := by
  refine ⟨?_, ?_, ?_⟩ <;> simp [chain11_violations, securityValidate]

/-- C1 (amended): a tree is accepted only when the walk produces no
violation of any severity; when it produces one or more violations that
are all warning-severity, validate reports isValid = false and, in strict
mode within the caps, evaluation short-circuits with a security error. -/
theorem c1_amended (parseFn : ParseFn) (reg : Registry)
    (opts : EvaluatorOptions) (fuel : Nat) (expr : String) (ctx : Ctx)
    (st : ExecState) (p : ParsedExpression)
    (hp : parseFn expr = some p)
    (hstrict : opts.strictMode = true)
    (hc : ¬ p.complexity > opts.maxComplexity)
    (hd : ¬ p.depth > opts.maxDepth)
    (hne : validateNode (regHas reg) p.ast ≠ [])
    (hw : ∀ v ∈ validateNode (regHas reg) p.ast, v.severity = some ("warning")) :
    (securityValidate (regHas reg) p.ast).isValid = false ∧
    (kangarooEvaluateExpression parseFn reg opts fuel expr ctx st).1.success
      = false ∧
    (kangarooEvaluateExpression parseFn reg opts fuel expr ctx st).1.errorType
      = some ("security") := by
  have hempty : (validateNode (regHas reg) p.ast).isEmpty = false := by
    cases hval : validateNode (regHas reg) p.ast with
    | nil => exact absurd hval hne
    | cons a l => simp
  refine ⟨?_, ?_, ?_⟩ <;>
    simp [securityValidate, kangarooEvaluateExpression, hp, hc, hd, hstrict,
      hempty]

/-- C1 witness: the warning-only chain, parsed within the caps, is
rejected with a security error in strict mode. -/
theorem c1_amended_witness :
    (securityValidate (regHas noFns) chain11).isValid = false ∧
    (kangarooEvaluateExpression (fun _ => some ⟨chain11, 1 / 2, 0⟩) noFns
      defaultOptions 0 ("chain") [] initExecState).1.success = false ∧
    (kangarooEvaluateExpression (fun _ => some ⟨chain11, 1 / 2, 0⟩) noFns
      defaultOptions 0 ("chain") [] initExecState).1.errorType
      = some ("security") :=
  c1_amended (fun _ => some ⟨chain11, 1 / 2, 0⟩) noFns defaultOptions 0
    ("chain") [] initExecState ⟨chain11, 1 / 2, 0⟩ rfl rfl
    (by norm_num [defaultOptions]) (by norm_num [defaultOptions])
    (by simp [chain11_violations]) (by simp [chain11_violations])


/-- C4: a reduce callback declaring all four documented parameters
(accumulator, element, index, array) passes the security validator (which
allows up to four arrow parameters) but is rejected per element by the
callback evaluator's three-parameter limit, so every invocation errors
and reduce returns the initial accumulator unchanged — the four
parameters are never bound.  The same fold with a two-parameter callback
computes the expected sum. -/
theorem c4_reduce_four_param_callback_never_binds :
    (securityValidate (regHas noFns) reduceFourParamExpr).isValid = true ∧
    (astExecute noFns 200 reduceFourParamExpr [] initExecState).1 =
      { success := true, value := some (.vNum (.int 0)) } ∧
    (astExecute noFns 200 reduceTwoParamExpr [] initExecState).1 =
      { success := true, value := some (.vNum (.int 6)) } := by
  refine ⟨?_, ?_, ?_⟩
  · simp [securityValidate, reduceFourParamExpr, validateNode, validateKids,
      builtinViolations, validateNodeList, validateOptList, validateMemberV,
      validateIdentifierV, validateCallV,
      validateCallbackCallV, validateArrowV, validateLiteralV, validateObjectV,
      validateOperatorV, getMethodNameV, getFullMethodNameV, getPropertyChainDepth,
      isProtoPollution, nodeType, supportedNodeTypes, blockedProperties,
      blockedIdentifiers, blockedOperators, callbackMethods, staticNamespaces,
      dangerousPatternHits, dangerousPatterns, regHas, noFns, JsNum.int]
  · simp [astExecute, reduceFourParamExpr, executeNode, executeCall,
      executeArgs, evalCallArgs, executeElems, executeCallbackMethod,
      executeCallbackCB, opReduce, validateArrowFunctionCB, isJsIdentName,
      identCharsOk, securityValidate, validateNode, validateKids,
      builtinViolations, validateNodeList, validateOptList, validateOperatorV,
      validateIdentifierV, nodeType,
      supportedNodeTypes, blockedOperators, blockedIdentifiers, bindParams,
      executeIdentifier, evalBinary, jsAdd, toPrimitiveV, toNumber, numAdd,
      JsNum.int, maxStackDepth, getMethodNameV, getFullMethodNameV,
      callbackMethods, staticNamespaces, regHas, noFns, isNullish, assocSet,
      initExecState, Bind.bind, Except.bind, List.lookup]
  · simp [astExecute, reduceTwoParamExpr, executeNode, executeCall,
      executeArgs, evalCallArgs, executeElems, executeCallbackMethod,
      executeCallbackCB, opReduce, validateArrowFunctionCB, isJsIdentName,
      identCharsOk, securityValidate, validateNode, validateKids,
      builtinViolations, validateNodeList, validateOptList, validateOperatorV,
      validateIdentifierV, nodeType,
      supportedNodeTypes, blockedOperators, blockedIdentifiers, bindParams,
      executeIdentifier, evalBinary, jsAdd, toPrimitiveV, toNumber, numAdd,
      JsNum.int, maxStackDepth, getMethodNameV, getFullMethodNameV,
      callbackMethods, staticNamespaces, regHas, noFns, isNullish, assocSet,
      initExecState, Bind.bind, Except.bind, List.lookup]
    norm_num


/-- Helper: parsing a bare identifier-shaped name yields the Identifier
node with complexity one half and depth zero. -/
lemma astParserParse_plain_ident (name : String)
    (h1 : jsTrim name = name) (hne : name ≠ "")
    (h3 : isJsIdentName name = true) :
    astParserParse name = some ⟨.identifier name, 1 / 2, 0⟩ := by
  have hdata : ("(" ++ name ++ ")").data = '(' :: (name.data ++ [')']) := by
    cases name with
    | mk l => rfl
  have hid : identCharsOk name.data = true := h3
  have hcomp : calcComplexity (.identifier name) = 1 / 2 := by
    simp [calcComplexity, complexitySum, complexityKids, complexityWeight,
      roundTenths]
  have hdepth : calcDepth (.identifier name) = 0 := by
    simp [calcDepth, nodeHeight]
  unfold astParserParse
  rw [if_neg hne, h1, if_neg hne]
  simp [specAcornWrappedExpr, hdata, List.getLast?_concat, hid, hcomp, hdepth]

/-- Helper: Kangaroo.validate on a bare identifier-shaped name reduces to
the identifier rule of the security validator (the caps pass at
complexity one half and depth zero). -/
lemma kangarooValidate_plain_ident (reg : Registry) (name : String)
    (h : identValidatePrepOk name = true) :
    kangarooValidate astParserParse reg defaultOptions name =
      ⟨(validateIdentifierV name).isEmpty, validateIdentifierV name⟩ := by
  have hsplit := h
  unfold identValidatePrepOk at hsplit
  simp only [Bool.and_eq_true, beq_iff_eq, Bool.not_eq_true'] at hsplit
  obtain ⟨⟨h1, h2⟩, h3⟩ := hsplit
  have hne : name ≠ "" := by
    intro he
    rw [he] at h3
    simp [isJsIdentName, identCharsOk] at h3
  have hparse := astParserParse_plain_ident name h1 hne h3
  have hvn : validateNode (regHas reg) (.identifier name)
      = validateIdentifierV name := by
    simp [validateNode, validateKids, builtinViolations, nodeType,
      supportedNodeTypes]
  unfold kangarooValidate
  rw [if_neg hne, h1, if_neg hne, h2]
  simp [hparse, h1, hne, securityValidate, hvn, defaultOptions]
  norm_num

/-- C5: for every name in the identifier denylist, validating the bare
identifier string reports isValid = false with a blocked_identifier
violation.  (The external parse of a bare name is spec-modelled; see
specAcornWrappedExpr.) -/
theorem c5_blocked_identifier_validate (reg : Registry) (name : String)
    (hmem : name ∈ blockedIdentifiers) :
    (kangarooValidate astParserParse reg defaultOptions name).isValid = false ∧
    ∃ v ∈ (kangarooValidate astParserParse reg defaultOptions name).violations,
      v.vtype = "blocked_identifier" := by
  have hall : blockedIdentifiers.all identValidatePrepOk = true := by decide
  have hprep : identValidatePrepOk name = true :=
    List.all_eq_true.mp hall _ hmem
  rw [kangarooValidate_plain_ident reg name hprep]
  have hcontains : blockedIdentifiers.contains name = true := by
    simpa using hmem
  simp [validateIdentifierV, hcontains]
  exact ⟨hmem, _, ⟨hmem, rfl⟩, rfl⟩

/-- C5 witness: validating the bare string `eval`. -/
theorem c5_blocked_identifier_validate_witness :
    (kangarooValidate astParserParse noFns defaultOptions ("eval")).isValid
      = false ∧
    ∃ v ∈ (kangarooValidate astParserParse noFns defaultOptions
        ("eval")).violations,
      v.vtype = "blocked_identifier" :=
  c5_blocked_identifier_validate noFns ("eval") (by decide)


/-- Helper: a hole whose evaluation reports failure makes the replacer
throw. -/

lemma templateReplacer_fails (evalExpr) (serializeV) (ctx : Ctx)
    (m : TemplateMatch) (s' : ExecState)
    (h : (evalExpr m.expression ctx s').1.success = false) :
    ∃ e, templateReplacer evalExpr serializeV ctx m.expression m s' =
      .error e := by
  rcases hres : evalExpr m.expression ctx s' with ⟨res, est'⟩
  rw [hres] at h
  simp at h
  exact ⟨res.error.getD (""), by simp [templateReplacer, hres, h]⟩

/-- Helper: a splice over matches that include an always-failing one
aborts with an error. -/
lemma spliceLoop_fails {σ : Type}
    (replacer : String → TemplateMatch → σ → Except String (String × σ))
    (ms : List TemplateMatch) (cs : List Char) (s : σ)
    (h : ∃ m ∈ ms, ∀ s', ∃ e, replacer m.expression m s' = .error e) :
    ∃ e, spliceLoop replacer ms cs s = .error e := by
  induction ms generalizing cs s with
  | nil =>
      obtain ⟨m, hm, _⟩ := h
      cases hm
  | cons m0 rest ih =>
      obtain ⟨m, hm, hf⟩ := h
      rcases List.mem_cons.mp hm with rfl | hmem
      · obtain ⟨e, he⟩ := hf s
        exact ⟨e, by simp [spliceLoop, he, Bind.bind, Except.bind]⟩
      · cases hrep : replacer m0.expression m0 s with
        | error e => exact ⟨e, by simp [spliceLoop, hrep, Bind.bind, Except.bind]⟩
        | ok p =>
            obtain ⟨e, he⟩ := ih
              ((cs.take m0.startIndex) ++ (p.1.data ++ (cs.drop m0.endIndex)))
              p.2 ⟨m, hmem, hf⟩
            exact ⟨e, by simp [spliceLoop, hrep, he, Bind.bind, Except.bind]⟩

/-- C8: when the evaluation of some hole's expression fails (and the
template is not served from the cache), the whole template call aborts
with a single error result: success = false, an error message, and no
partially substituted template string. -/
theorem c8_template_error_aborts
    (evalExpr : String → Ctx → ExecState → EvaluationResult × ExecState)
    (serializeV : Value → Except String String) (opts : EvaluatorOptions)
    (template : String) (ctx : Ctx) (ks : KangarooState)
    (hmiss : (if opts.enableCaching then
        ks.templateCache.lookup (getTemplateCacheKey template ctx) else none)
      = none)
    (hfail : ∃ m ∈ extractTemplateExpressions template, ∀ est,
      (evalExpr m.expression ctx est).1.success = false) :
    (evaluateTemplate evalExpr serializeV opts template ctx ks).1.success
      = false ∧
    (evaluateTemplate evalExpr serializeV opts template ctx ks).1.result
      = none ∧
    (evaluateTemplate evalExpr serializeV opts template ctx ks).1.error.isSome
      = true := by
  obtain ⟨m, hmem, hf⟩ := hfail
  have hrep : ∃ m' ∈ (extractTemplateExpressions template).reverse, ∀ s', ∃ e,
      templateReplacer evalExpr serializeV ctx m'.expression m' s' = .error e :=
    ⟨m, List.mem_reverse.mpr hmem,
     fun s' => templateReplacer_fails evalExpr serializeV ctx m s' (hf s')⟩
  obtain ⟨e, he⟩ := spliceLoop_fails (templateReplacer evalExpr serializeV ctx)
    (extractTemplateExpressions template).reverse template.data ks.exec hrep
  have hrun : replaceTemplateExpressions template
      (templateReplacer evalExpr serializeV ctx) ks.exec = .error e := by
    simp [replaceTemplateExpressions, he]
  refine ⟨?_, ?_, ?_⟩ <;>
    simp [evaluateTemplate, hmiss, hrun]

/-- C8 witness: a template whose single hole always fails aborts with an
error result. -/
theorem c8_template_error_aborts_witness :
    (evaluateTemplate c8FailingEval (fun v => .ok (jsString v)) defaultOptions
      c8Template [] initKangarooState).1.success = false ∧
    (evaluateTemplate c8FailingEval (fun v => .ok (jsString v)) defaultOptions
      c8Template [] initKangarooState).1.result = none ∧
    (evaluateTemplate c8FailingEval (fun v => .ok (jsString v)) defaultOptions
      c8Template [] initKangarooState).1.error.isSome = true :=
  c8_template_error_aborts c8FailingEval (fun v => .ok (jsString v))
    defaultOptions c8Template [] initKangarooState
    (by simp [initKangarooState, defaultOptions])
    ⟨⟨"y", 2, 7⟩, by decide, fun est => rfl⟩

/-- Helper: evaluating the hole expression `x` returns the context's
value for `x` unchanged, leaving the executor state untouched. -/
lemma c7_eval_hole (ctx : Ctx) (v : Value) (hctx : ctx.lookup ("x") = some v)
    (st : ExecState) :
    kangarooEvaluateExpression astParserParse noFns defaultOptions 50 ("x")
      ctx st = ({ success := true, value := some v }, st) := by
  have hparse : astParserParse ("x") = some ⟨.identifier ("x"), 1 / 2, 0⟩ :=
    astParserParse_plain_ident ("x") (by decide) (by decide) (by decide)
  simp [kangarooEvaluateExpression, hparse, defaultOptions, securityValidate,
    validateNode, validateKids, builtinViolations, validateIdentifierV,
    nodeType, supportedNodeTypes, blockedIdentifiers, astExecute, executeNode,
    executeIdentifier, maxStackDepth, hctx, regHas, noFns]
  norm_num

set_option maxHeartbeats 2000000 in
/-- C7: template cache hits depend only on the template text and the
sorted context key names — on one instance with caching enabled, a second
evaluate call with the same template and an equal key set but a different
value for `x` returns the first call's result (computed from the first
context), while a fresh instance computes the second context's value. -/
theorem c7_template_cache_ignores_context_values :
    c7Second.1 = .template { success := true, result := some ("1") } ∧
    c7Fresh2.1 = .template { success := true, result := some ("2") } := by
  have htrim : jsTrim c7Template = c7Template := by decide
  have hhas : hasTemplateExpressions c7Template = true := by decide
  have hx : extractTemplateExpressions c7Template = [⟨"x", 0, 5⟩] := by decide
  have hne : c7Template ≠ "" := by decide
  have h1 : kangarooEvaluateExpression astParserParse noFns defaultOptions 50
      ("x") c7Ctx1 initExecState =
      ({ success := true, value := some (.vStr ("1")) }, initExecState) :=
    c7_eval_hole c7Ctx1 (.vStr ("1")) rfl initExecState
  have h2 : kangarooEvaluateExpression astParserParse noFns defaultOptions 50
      ("x") c7Ctx2 initExecState =
      ({ success := true, value := some (.vStr ("2")) }, initExecState) :=
    c7_eval_hole c7Ctx2 (.vStr ("2")) rfl initExecState
  have hrepl1 : replaceTemplateExpressions c7Template
      (templateReplacer (fun e c est => kangarooEvaluateExpression
        astParserParse noFns defaultOptions 50 e c est) (serializeValue [])
        c7Ctx1) initExecState = .ok (("1"), initExecState) := by
    rw [replaceTemplateExpressions, hx]
    simp only [List.reverse_singleton, spliceLoop, templateReplacer, h1,
      Bind.bind, Except.bind]
    simp [serializeValue, detectType, isNullish, jsString]
    rfl
  have hkey1 : getTemplateCacheKey c7Template c7Ctx1 = "\x7b\x7bx\x7d\x7d|x" := by
    decide
  have hfirst : c7First = (.template { success := true, result := some ("1") },
      ⟨initExecState,
       [("\x7b\x7bx\x7d\x7d|x", { success := true, result := some ("1") })],
       1⟩) := by
    rw [c7First, kangarooEvaluate, if_neg hne, htrim, if_neg hne, hhas]
    simp only [if_true, reduceIte]
    rw [evaluateTemplate, hkey1]
    simp only [show defaultOptions.enableCaching = true from rfl, if_true,
      initKangarooState, List.lookup, hrepl1]
    simp [setTemplateCached, tmplCacheSet, maxTemplateCacheSize]
  have hkey2 : getTemplateCacheKey c7Template c7Ctx2 = "\x7b\x7bx\x7d\x7d|x" := by
    decide
  have hrepl2 : replaceTemplateExpressions c7Template
      (templateReplacer (fun e c est => kangarooEvaluateExpression
        astParserParse noFns defaultOptions 50 e c est) (serializeValue [])
        c7Ctx2) initExecState = .ok (("2"), initExecState) := by
    rw [replaceTemplateExpressions, hx]
    simp only [List.reverse_singleton, spliceLoop, templateReplacer, h2,
      Bind.bind, Except.bind]
    simp [serializeValue, detectType, isNullish, jsString]
    rfl
  constructor
  · rw [c7Second, hfirst]
    rw [kangarooEvaluate, if_neg hne, htrim, if_neg hne, hhas]
    simp only [if_true, reduceIte]
    rw [evaluateTemplate, hkey2]
    simp only [show defaultOptions.enableCaching = true from rfl, if_true,
      List.lookup]
    simp
  · rw [c7Fresh2, kangarooEvaluate, if_neg hne, htrim, if_neg hne, hhas]
    simp only [if_true, reduceIte]
    rw [evaluateTemplate, hkey2]
    simp only [show defaultOptions.enableCaching = true from rfl, if_true,
      initKangarooState, List.lookup, hrepl2]

end Kangaroo
